import Mathlib

/-!
Verification development for the cb-ai-api turn-orchestration engine.

This file gives a shallow embedding, in Lean 4, of the core of the
repository: the Python value model used by conversation state and
context updates, the context-update merge algorithm
(`app/tools/__init__.py`), the tool dispatcher (`execute_tool`), the
conversation state schema and its mutators (`app/schemas/state.py`),
the conversation state store (`app/services/state.py`), the retrying
model client (`app/clients/azure_openai.py`), and the turn
orchestrator (`app/services/orchestrator.py`).

Modelling conventions:
* Python JSON-like values are the inductive `Val`; Python dicts are
  insertion-ordered association lists (`Dict`), with first-match
  lookup and in-place replacement on insert, matching dict semantics
  for duplicate-free key lists.
* Fallible Python code returns `Except PyExn`; an uncaught exception
  is an `.error` value.
* External effects (the Azure OpenAI transport, `json.loads` of the
  arguments string plus the reflective argument binding, the pretty
  `json.dumps` used for rendering the user message, and the system
  clock / timezone database) are environment parameters, so theorems
  quantify over their behaviour.
* The orchestrator recursion `_handle_tool_calls` to
  `_complete_with_tool_outputs` and back is unbounded in Python (it
  would end in a `RecursionError` at the interpreter recursion
  limit); the embedding makes that bound explicit as a `fuel`
  argument whose exhaustion raises the same `RecursionError`.
-/

set_option autoImplicit false

/-- Python JSON-like runtime values (the payloads of slots, metadata and
context updates). -/
inductive Val where
  | none
  | bool (b : Bool)
  | int (n : Int)
  | str (s : String)
  | list (xs : List Val)
  | dict (entries : List (String × Val))

/-- Python dict with string keys: an insertion-ordered association list. -/
abbrev Dict := List (String × Val)

/-- Python truthiness of a value (`bool(v)`). -/
def Val.truthy : Val → Bool
  | .none => false
  | .bool b => b
  | .int n => n != 0
  | .str s => s != ""
  | .list xs => !xs.isEmpty
  | .dict d => !d.isEmpty

/-- `isinstance(v, dict)`. -/
def Val.isDict : Val → Bool
  | .dict _ => true
  | _ => false

/-- `isinstance(v, str)`. -/
def Val.isStr : Val → Bool
  | .str _ => true
  | _ => false

/-- Python `d.get(k)`: the value stored at `k`, if any (first match). -/
def dget : Dict → String → Option Val
  | [], _ => Option.none
  | (k, v) :: rest, key => if k = key then some v else dget rest key

/-- Python `d[k] = v`: replace the value at an existing key in place,
otherwise append the new pair at the end (insertion order). -/
def dinsert : Dict → String → Val → Dict
  | [], k, v => [(k, v)]
  | (k', v') :: rest, k, v =>
      if k' = k then (k, v) :: rest else (k', v') :: dinsert rest k v

/-- Python `d.update(other)`: assign every key of `other` in order. -/
def dupdate (d other : Dict) : Dict :=
  other.foldl (fun acc kv => dinsert acc kv.1 kv.2) d

/-- Python `d.setdefault(k, v)`: insert `v` at `k` only when `k` is absent. -/
def dsetdefault (d : Dict) (k : String) (v : Val) : Dict :=
  match dget d k with
  | some _ => d
  | Option.none => d ++ [(k, v)]

/-- Keys of the dict are pairwise distinct (always true for a real Python
dict). -/
def nodupKeys : Dict → Bool
  | [] => true
  | (k, _) :: rest => (dget rest k).isNone && nodupKeys rest

/-- Left-biased choice on optional values (`u.get(k)` falling back to the
accumulator). -/
def ochoice {β : Type} (a b : Option β) : Option β :=
  match a with
  | some v => some v
  | Option.none => b

/-- Python exceptions that the embedded code can raise. `other` carries the
class name of an exception produced by an abstracted effect (for example a
transport failure inside the OpenAI SDK). -/
inductive PyExn where
  | attributeError
  | valueError (msg : String)
  | typeError (msg : String)
  | other (name : String)

/-- `type(exc).__name__`, as recorded in `metadata["last_error"]`. -/
def PyExn.name : PyExn → String
  | .attributeError => "AttributeError"
  | .valueError _ => "ValueError"
  | .typeError _ => "TypeError"
  | .other n => n

/-- The entry list of a dict value (`[]` on anything else). -/
def dvOf : Val → Dict
  | .dict d => d
  | _ => []

/-- `merged.setdefault(rk, {}); merged[rk].update(value)`: the deep-merge
of one reserved key inside `merge_context_updates`.  When the accumulator
already holds a non-dict at `rk`, `.update` raises `AttributeError`. -/
def mergeReservedStep (merged : Dict) (rk : String) (value : Val) : Except PyExn Dict :=
  let m := dsetdefault merged rk (.dict [])
  match dget m rk with
  | some (.dict cur) => .ok (dinsert m rk (.dict (dupdate cur (dvOf value))))
  | _ => .error .attributeError

/-- One iteration of the inner loop of `merge_context_updates`
(`app/tools/__init__.py`, lines 148-156): reserved keys `slots` and
`metadata` holding dicts are deep-merged via `setdefault` + `update`;
everything else is assigned directly. -/
def merge_step (merged : Dict) (kv : String × Val) : Except PyExn Dict :=
  match kv with
  | (key, value) =>
    if key = "slots" && value.isDict then mergeReservedStep merged "slots" value
    else if key = "metadata" && value.isDict then mergeReservedStep merged "metadata" value
    else .ok (dinsert merged key value)

/-- Process one update dict of `merge_context_updates`; an empty dict is
skipped (`if not updates: continue`). -/
def merge_one (merged u : Dict) : Except PyExn Dict :=
  if u.isEmpty then .ok merged else u.foldlM merge_step merged

/-- `merge_context_updates` (`app/tools/__init__.py`, lines 140-157):
flatten several context-update dicts into one payload. -/
def merge_context_updates (updates_list : List Dict) : Except PyExn Dict :=
  updates_list.foldlM merge_one []

/-- The value that the last update containing key `k` assigns to it
("later wins" in sequence order). -/
def lastVal (us : List Dict) (k : String) : Option Val :=
  (us.filterMap (fun u => dget u k)).getLast?

/-- The sequence of dict values carried at reserved key `k` by the updates
that contain it. -/
def reservedInner (us : List Dict) (k : String) : List Dict :=
  us.filterMap (fun u =>
    match dget u k with
    | some (.dict d) => some d
    | _ => Option.none)

/-- Per-inner-key "later wins" across the dict values at a reserved key. -/
def innerLast (us : List Dict) (k ik : String) : Option Val :=
  ((reservedInner us k).filterMap (fun d => dget d ik)).getLast?

/-- If key `k` is present its value is a dict with pairwise-distinct keys
(true for every dict a real tool can produce). -/
def dictValNodup (v : Option Val) : Bool :=
  match v with
  | Option.none => true
  | some (.dict d) => nodupKeys d
  | some _ => false

/-- Well-formedness of one context update: distinct keys, and reserved keys
(if present) hold duplicate-free dicts. -/
def wfUpdate (u : Dict) : Bool :=
  nodupKeys u && dictValNodup (dget u "slots") && dictValNodup (dget u "metadata")

/-- The dict currently merged at reserved key `k` of the accumulator
(`[]` when absent). -/
def curOf (m : Dict) (k : String) : Dict :=
  match dget m k with
  | some (.dict c) => c
  | _ => []

/-- Accumulator invariant of `merge_context_updates`: any value stored at
a reserved key is a dict. -/
def accWF (m : Dict) : Prop :=
  ∀ k v, (k = "slots" ∨ k = "metadata") → dget m k = some v → ∃ d, v = .dict d

/-- The value `merge_context_updates` holds at reserved key `k` after
starting from accumulator `m` and folding the updates `us`: the dicts
contributed at `k` are merged key-by-key on top of the accumulator. -/
def mergedReservedAcc (m : Dict) (us : List Dict) (k : String) : Option Val :=
  match reservedInner us k with
  | [] => dget m k
  | ds => some (.dict (ds.foldl dupdate (curOf m k)))

/-- `pre` is a character-list prefix of `s` (Python `s.startswith(pre)`). -/
def charsStartWith : List Char → List Char → Bool
  | [], _ => true
  | _ :: _, [] => false
  | p :: ps, c :: cs => p == c && charsStartWith ps cs

/-- Python `s.startswith(pre)`. -/
def strStartsWith (s pre : String) : Bool :=
  charsStartWith pre.data s.data

/-- Whitespace characters stripped by Python `str.strip()`. -/
def isSpaceChar (c : Char) : Bool :=
  c == ' ' || c == '\n' || c == '\t' || c == '\r' || c == '\x0b' || c == '\x0c'

/-- Python `s.strip()`. -/
def pyStrip (s : String) : String :=
  ⟨((s.data.dropWhile isSpaceChar).reverse.dropWhile isSpaceChar).reverse⟩

/-- Python `sep.join(parts)`. -/
def joinSep (sep : String) : List String → String
  | [] => ""
  | [x] => x
  | x :: xs => x ++ sep ++ joinSep sep xs

/-- Python `l[-n:]` for `n > 0`. -/
def takeLast {α : Type} (l : List α) (n : Nat) : List α :=
  l.drop (l.length - n)

/-- Escape one character for a JSON string literal (`json.dumps` with
`ensure_ascii=False`). -/
def jsonEscapeChar (c : Char) : String :=
  if c = '"' then "\\\""
  else if c = '\\' then "\\\\"
  else if c = '\n' then "\\n"
  else if c = '\t' then "\\t"
  else if c = '\r' then "\\r"
  else String.singleton c

/-- JSON string literal body. -/
def jsonEscape (s : String) : String :=
  String.join (s.data.map jsonEscapeChar)

mutual

/-- `json.dumps(v, ensure_ascii=False)` with the default separators. -/
def jsonDumps : Val → String
  | .none => "null"
  | .bool true => "true"
  | .bool false => "false"
  | .int n => toString n
  | .str s => "\"" ++ jsonEscape s ++ "\""
  | .list xs => "[" ++ jsonDumpsList xs ++ "]"
  | .dict d => "\x7b" ++ jsonDumpsEntries d ++ "\x7d"

def jsonDumpsList : List Val → String
  | [] => ""
  | [v] => jsonDumps v
  | v :: vs => jsonDumps v ++ ", " ++ jsonDumpsList vs

def jsonDumpsEntries : List (String × Val) → String
  | [] => ""
  | [(k, v)] => "\"" ++ jsonEscape k ++ "\": " ++ jsonDumps v
  | (k, v) :: kvs =>
      "\"" ++ jsonEscape k ++ "\": " ++ jsonDumps v ++ ", " ++ jsonDumpsEntries kvs

end

mutual

/-- Python `str(v)` for the JSON-like values of the model (`repr`-style
rendering for containers). -/
def pyStr : Val → String
  | .none => "None"
  | .bool true => "True"
  | .bool false => "False"
  | .int n => toString n
  | .str s => s
  | .list xs => "[" ++ pyStrList xs ++ "]"
  | .dict d => "\x7b" ++ pyStrEntries d ++ "\x7d"

/-- `repr(v)` (only differs from `str` on strings). -/
def pyRepr : Val → String
  | .str s => "\x27" ++ s ++ "\x27"
  | v => pyStr v

def pyStrList : List Val → String
  | [] => ""
  | [v] => pyRepr v
  | v :: vs => pyRepr v ++ ", " ++ pyStrList vs

def pyStrEntries : List (String × Val) → String
  | [] => ""
  | [(k, v)] => "\x27" ++ k ++ "\x27: " ++ pyRepr v
  | (k, v) :: kvs => "\x27" ++ k ++ "\x27: " ++ pyRepr v ++ ", " ++ pyStrEntries kvs

end

/-- Python `str(v)`, with the identity on strings exposed to the
definitional level (`str` of a `str` is itself). -/
def pyStrOf : Val → String
  | .str s => s
  | v => pyStr v

/-- Truthiness of `Optional[str]` fields (`None` and `""` are falsy). -/
def optStrTruthy : Option String → Bool
  | some s => s != ""
  | Option.none => false

/-- Truthiness of an optional `Val` attribute. -/
def optValTruthy : Option Val → Bool
  | some v => v.truthy
  | Option.none => false

/-- `app/schemas/inbound.py` `ChatContext`: conversation context snapshot
provided by the legacy chatbot. (Pydantic defaults, such as `language='uk'`,
are applied at request parsing time, before this model sees the value.) -/
structure ChatContext where
  language : Option String := Option.none
  timezone : Option String := Option.none
  slots : Dict := []

/-- `app/schemas/inbound.py` `ChatbotMessage`: the inbound turn payload. -/
structure ChatbotMessage where
  chat_id : String
  user_id : Option String := Option.none
  message_id : Option String := Option.none
  text : String
  is_private : Bool := true
  context : ChatContext := {}
  metadata : Dict := []

/-- One entry of `ConversationState.history` (`{"role": ..., "content": ...}`). -/
structure HistMsg where
  role : String
  content : String

/-- `app/schemas/state.py` `ConversationState`.  `language` is `Option Val`
because `apply_updates` assigns whatever truthy value the updates carry
without validation. `last_updated` is a timestamp in seconds. -/
structure ConversationState where
  chat_id : String
  language : Option Val := Option.none
  slots : Dict := []
  metadata : Dict := []
  history : List HistMsg := []
  last_updated : Int := 0

/-- `ConversationState.touch`: refresh the `last_updated` timestamp. -/
def ConversationState.touch (s : ConversationState) (now : Int) : ConversationState :=
  { s with last_updated := now }

/-- `ConversationState.merge_inbound_context` (`app/schemas/state.py`,
lines 21-28): fill-if-empty merge of the inbound chatbot context. -/
def ConversationState.merge_inbound_context
    (s : ConversationState) (context : ChatContext) : ConversationState :=
  let s :=
    if optStrTruthy context.language && !optValTruthy s.language then
      { s with language := some (.str (context.language.getD "")) }
    else s
  let s :=
    if !context.slots.isEmpty then { s with slots := dupdate s.slots context.slots }
    else s
  if optStrTruthy context.timezone then
    { s with metadata := dsetdefault s.metadata "timezone" (.str (context.timezone.getD "")) }
  else s

/-- `language = updates.get("language"); if language: self.language = language`
(no validation: whatever truthy value the updates carry is assigned). -/
def applyLanguagePhase (s : ConversationState) (updates : Dict) : ConversationState :=
  match dget updates "language" with
  | some v => if v.truthy then { s with language := some v } else s
  | Option.none => s

/-- `slots = updates.get("slots"); if isinstance(slots, dict): self.slots.update(slots)`. -/
def applySlotsPhase (s : ConversationState) (updates : Dict) : ConversationState :=
  match dget updates "slots" with
  | some (.dict d) => { s with slots := dupdate s.slots d }
  | _ => s

/-- `metadata = updates.get("metadata"); if isinstance(metadata, dict):
self.metadata.update(metadata)`. -/
def applyMetadataPhase (s : ConversationState) (updates : Dict) : ConversationState :=
  match dget updates "metadata" with
  | some (.dict d) => { s with metadata := dupdate s.metadata d }
  | _ => s

/-- The trailing loop of `apply_updates`: any top-level key other than the
three structured ones is persisted under `metadata` to avoid loss. -/
def applyFreeFormStep (acc : ConversationState) (kv : String × Val) : ConversationState :=
  if kv.1 = "language" || kv.1 = "slots" || kv.1 = "metadata" then acc
  else { acc with metadata := dinsert acc.metadata kv.1 kv.2 }

/-- `ConversationState.apply_updates` (`app/schemas/state.py`, lines 30-50):
apply the changes requested by the orchestrator; free-form keys are folded
into `metadata`. -/
def ConversationState.apply_updates
    (s : ConversationState) (updates : Dict) : ConversationState :=
  if updates.isEmpty then s
  else
    let s := applyLanguagePhase s updates
    let s := applySlotsPhase s updates
    let s := applyMetadataPhase s updates
    updates.foldl applyFreeFormStep s

/-- `ConversationState.append_history` (`app/schemas/state.py`, lines 63-72):
append a message, trim to the last `max_messages`, refresh the timestamp.
Empty content is ignored. -/
def ConversationState.append_history (s : ConversationState) (role content : String)
    (max_messages : Nat) (now : Int) : ConversationState :=
  if content = "" then s
  else
    let history := s.history ++ [⟨role, content⟩]
    let history :=
      if 0 < max_messages && max_messages < history.length then takeLast history max_messages
      else history
    { s with history := history, last_updated := now }

/-- Fresh `ConversationState(chat_id=...)` (all pydantic defaults). -/
def freshState (chatId : String) (now : Int) : ConversationState :=
  { chat_id := chatId, last_updated := now }

/-- `HISTORY_TTL = timedelta(hours=2)` (`app/services/state.py`), in seconds. -/
def HISTORY_TTL : Int := 7200

/-- Lookup in the store's backing map `_states` (chat id to heap address). -/
def lookupAddr : List (String × Nat) → String → Option Nat
  | [], _ => Option.none
  | (k, a) :: rest, key => if k = key then some a else lookupAddr rest key

/-- Bind a chat id to a heap address in the backing map. -/
def insertAddr : List (String × Nat) → String → Nat → List (String × Nat)
  | [], k, a => [(k, a)]
  | (k', a') :: rest, k, a =>
      if k' = k then (k, a) :: rest else (k', a') :: insertAddr rest k a

/-- Replace the object stored at heap index `i` (in-place mutation of a
Python object). -/
def listModify {α : Type} (l : List α) (i : Nat) (f : α → α) : List α :=
  match l, i with
  | [], _ => []
  | x :: xs, 0 => f x :: xs
  | x :: xs, n + 1 => x :: listModify xs n f

/-- `app/services/state.py` `ConversationStateStore`, with an explicit heap
of state objects so that aliasing between the live stored object and the
snapshots handed to callers is observable.  `heap` indices are object
identities; `states` is the `_states` dict.  The single asyncio lock makes
each store method one atomic step, which is how the methods appear here. -/
structure StoreModel where
  heap : List ConversationState := []
  states : List (String × Nat) := []

/-- Dereference a heap address. -/
def StoreModel.deref (st : StoreModel) (addr : Nat) : Option ConversationState :=
  st.heap.get? addr

/-- The state currently stored for a conversation id (dereferencing the
backing map). -/
def storedState (st : StoreModel) (chatId : String) : Option ConversationState :=
  (lookupAddr st.states chatId).bind (fun a => st.heap.get? a)

/-- A caller mutates the object it holds at `addr` (for example
`snapshot.slots["k"] = v`): only that heap cell changes. -/
def mutateAt (st : StoreModel) (addr : Nat) (f : ConversationState → ConversationState) :
    StoreModel :=
  { st with heap := listModify st.heap addr f }

/-- The `state = self._states.get(...)` / expiry part of
`ConversationStateStore.load`: the address of the live object to work on
(recreated at a fresh address when absent or older than the TTL) and the
heap it lives in. -/
def StoreModel.loadSelect (st : StoreModel) (payload : ChatbotMessage) (now : Int) :
    Nat × List ConversationState :=
  match lookupAddr st.states payload.chat_id with
  | some a =>
      match st.heap.get? a with
      | some s =>
          if now - s.last_updated > HISTORY_TTL then
            (st.heap.length, st.heap ++ [freshState payload.chat_id now])
          else (a, st.heap)
      | Option.none => (st.heap.length, st.heap ++ [freshState payload.chat_id now])
  | Option.none => (st.heap.length, st.heap ++ [freshState payload.chat_id now])

/-- `ConversationStateStore.load` (`app/services/state.py`, lines 29-39):
fetch or (re)create the per-conversation state, hydrate it with the inbound
context, refresh its timestamp, store the live object back, and return the
address of a fresh deep copy (`state.clone()`). -/
def StoreModel.load (st : StoreModel) (payload : ChatbotMessage) (now : Int) :
    Nat × StoreModel :=
  let sel := st.loadSelect payload now
  let addr := sel.1
  let heap := listModify sel.2 addr
    (fun s => (s.merge_inbound_context payload.context).touch now)
  let states := insertAddr st.states payload.chat_id addr
  let snapshot := (heap.get? addr).getD (freshState payload.chat_id now)
  (heap.length, { heap := heap ++ [snapshot], states := states })

/-- `ConversationStateStore.persist` (`app/services/state.py`, lines 41-45):
touch the caller's object, then store a deep copy of it under its chat id.
The caller passes the address of the object it holds. -/
def StoreModel.persistAddr (st : StoreModel) (addr : Nat) (now : Int) : StoreModel :=
  match st.heap.get? addr with
  | Option.none => st
  | some s0 =>
      let s := s0.touch now
      let heap := listModify st.heap addr (fun _ => s)
      { heap := heap ++ [s], states := insertAddr st.states s.chat_id heap.length }

/-- The snapshot value obtained by a `load` (dereferencing the returned
address). -/
def loadVal (st : StoreModel) (payload : ChatbotMessage) (now : Int) : ConversationState :=
  let (addr, st') := st.load payload now
  (st'.deref addr).getD (freshState payload.chat_id now)

/-- One element of a model message `content` list. -/
inductive ContentItem where
  | dictItem (type_ : String) (text : String)
  | strItem (s : String)
  | otherItem

/-- The `content` attribute of a model message (string, content-part list,
or missing / `None`). -/
inductive MsgContent where
  | str (s : String)
  | list (items : List ContentItem)
  | none

/-- The `function` attribute of a tool call in a completion. -/
structure ToolCallFunction where
  name : Option String := Option.none
  arguments : String := ""

/-- One tool call requested by the model. -/
structure ToolCall where
  id : Option String := Option.none
  function : Option ToolCallFunction := Option.none

/-- The `message` attribute of a completion choice. -/
structure ChatMessage where
  content : MsgContent := .str ""
  tool_calls : Option (List ToolCall) := Option.none

/-- `getattr(choice, "message", None) or {}` falls back to an attribute-less
object: empty content, no tool calls. -/
def ChatMessage.emptyMsg : ChatMessage := {}

/-- One choice of a completion. -/
structure Choice where
  message : Option ChatMessage := Option.none

/-- An Azure OpenAI chat completion, as far as the orchestrator reads it. -/
structure Completion where
  choices : List Choice := []

/-- Outcome of one underlying `chat.completions.create` call: success, a
transport/protocol failure, or task cancellation. -/
inductive CallOutcome where
  | ok (c : Completion)
  | fail (e : PyExn)
  | cancelled

/-- Observable outcome of `AzureOpenAIClient.generate`, recording how many
underlying calls were made. -/
inductive GenOutcome where
  | ok (c : Completion) (attempts : Nat)
  | failed (e : PyExn) (attempts : Nat)
  | cancelled (attempts : Nat)

/-- `AzureOpenAIClient._compute_backoff` (`app/clients/azure_openai.py`,
lines 118-126). `jitter` is the sampled `random.uniform(0.8, 1.2)` value. -/
def compute_backoff (retry_base_delay retry_max_delay jitter : ℚ) (attempt : Nat) : ℚ :=
  if retry_base_delay ≤ 0 then 0
  else
    let delay := retry_base_delay * 2 ^ (attempt - 1)
    let delay := if retry_max_delay ≠ 0 then min delay retry_max_delay else delay
    max 0 (delay * jitter)

/-- The retry loop of `AzureOpenAIClient.generate` (`app/clients/azure_openai.py`,
lines 84-116).  `call n` is the outcome of the `n`-th underlying
call (`n` starts at 0); `remaining` is `max_retries - attempt`.  On failure
with retries remaining the code sleeps `_compute_backoff(attempt)` and
retries; the sleep has no further observable effect here.  Cancellation is
re-raised immediately. -/
def generateAux (call : Nat → CallOutcome) (callsMade : Nat) :
    Nat → GenOutcome
  | 0 =>
    match call callsMade with
    | .ok c => .ok c (callsMade + 1)
    | .cancelled => .cancelled (callsMade + 1)
    | .fail e => .failed e (callsMade + 1)
  | r + 1 =>
    match call callsMade with
    | .ok c => .ok c (callsMade + 1)
    | .cancelled => .cancelled (callsMade + 1)
    | .fail _ => generateAux call (callsMade + 1) r

/-- `AzureOpenAIClient.generate` for a client configured with
`max_retries`. -/
def generate (call : Nat → CallOutcome) (max_retries : Nat) : GenOutcome :=
  generateAux call 0 max_retries

/-- Normalized `ToolExecutionResult` (`app/tools/types.py`) as produced by
`execute_tool`: `data` is always a string by then. -/
structure ToolExecutionResult where
  event : String := "send"
  data : String := ""
  context_updates : Dict := []
  post_process : Bool := false

/-- A `ToolExecutionResult` value as a tool executor builds it, before
normalization: `data` may be any Python value (`None` included) and
`context_updates` may be `None`. -/
structure RawToolResult where
  event : String := "send"
  data : Val := .none
  context_updates : Option Dict := some []
  post_process : Bool := false

/-- The heterogeneous value a registered tool executor may return:
a `ToolExecutionResult` instance, an old-style `(reply_text, updates)`
tuple, any other object (unsupported), or an exception escaping the
executor. -/
inductive PyToolRet where
  | res (r : RawToolResult)
  | tuple2 (text : Val) (updates : Option Dict)
  | badShape
  | raises (e : PyExn)

/-- Errors raised by `execute_tool`: `UnknownToolError` (caught separately
by the orchestrator) or an ordinary Python exception. -/
inductive ToolError where
  | unknownTool (msg : String)
  | exc (e : PyExn)

/-- The keys of `TOOL_REGISTRY` (`app/tools/__init__.py`, lines 21-58). -/
def registryNames : List String :=
  ["get_exchange", "get_specific_exchange", "get_balance", "get_specific_balance",
   "get_client_accounts_info", "get_statement", "get_bank_info"]

/-- `json.loads(arguments)` plus the parameter binding of the executor and
the executor body itself are external to the core: `parse` yields the
parsed argument dict (or `None` on `json.JSONDecodeError`), and `run`
yields what the named executor returns for those bound arguments. -/
structure ToolRuntime where
  parse : String → Option Dict
  run : String → Dict → ConversationState → Val → PyToolRet

/-- `execute_tool` (`app/tools/__init__.py`, lines 66-137): dispatch a tool
requested by the LLM and normalize its heterogeneous return shape.  The
`TypeError` message abstracts from the f-string of the source (whose `name`
is the shadowed loop variable). -/
def execute_tool (rt : ToolRuntime) (name : String) (arguments : String)
    (state : ConversationState) (language : Val) : Except ToolError ToolExecutionResult :=
  if !registryNames.contains name then
    .error (.unknownTool ("Tool \x27" ++ name ++ "\x27 is not registered."))
  else
    match (if arguments = "" then some ([] : Dict) else rt.parse arguments) with
    | Option.none =>
        .error (.exc (.valueError
          ("Invalid arguments for tool \x27" ++ name ++ "\x27: " ++ arguments)))
    | some parsed_args =>
      match rt.run name parsed_args state language with
      | .raises e => .error (.exc e)
      | .res r =>
          let event := if r.event = "" then "send" else r.event
          let data :=
            if r.post_process && !r.data.isStr then jsonDumps r.data
            else match r.data with
              | .none => ""
              | v => pyStrOf v
          .ok { event := event, data := data, context_updates := r.context_updates.getD [],
                post_process := r.post_process }
      | .tuple2 text updates =>
          .ok { event := "send", data := pyStrOf (if text.truthy then text else .str ""),
                context_updates := updates.getD [], post_process := false }
      | .badShape => .error (.exc (.typeError "unsupported result type"))

/-- `AgentReply` (`app/schemas/responses.py`): the turn's final output.
`context_updates` is internal (excluded from serialization). -/
structure AgentReply where
  event : String := "send"
  data : String := ""
  context_updates : Dict := []

/-- `SYSTEM_PROMPT` of `app/services/orchestrator.py`. -/
def SYSTEM_PROMPT : String :=
  "You are a compliant digital banking assistant serving retail clients in Ukraine. " ++
  "Respond only using Ukrainian language. " ++
  "If the request requires back-end actions, decide whether to call an available tool. " ++
  "Never invent account information. When unsure, ask follow-up questions. " ++
  "If the user asks about bank branches, first ask which city they are looking for. " ++
  "If user ask same question/information about his bank account, and you already have it in history or memory, don\x27t use those info, always use tools to get most recent information." ++
  "When tools are available, prefer calling them immediately over promising future actions. " ++
  "For bank statements/extracts: if accountid is unknown, call get_client_accounts_info to fetch accounts, then choose the correct account (by currency/IBAN fragment) and call get_statement with accountid and date range in the SAME turn. If you have all the info to use statement tool, prompt user with all the info to get permission to use tool. " ++
  "Do not use future dates for statements. If the user requests a future date range, ask them to provide a valid period up to today." ++
  "If the user only expresses thanks/acknowledgment without a new request, reply politely and do not call tools. "

/-- `self._max_history_messages` of the orchestrator. -/
def MAX_HISTORY_MESSAGES : Nat := 20

/-- English fallback apology (`_fallback_reply`). -/
def enApologyText : String :=
  "Sorry, I cannot process this request right now. Please try again in a moment."

/-- Default-language (Ukrainian) fallback apology (`_fallback_reply`). -/
def defaultApologyText : String :=
  "Вибачте, наразі я не можу опрацювати запит. Будь ласка, спробуйте знову трохи пізніше."

/-- English unknown-tool reply (`_handle_tool_calls`). -/
def enUnavailableText : String := "The requested tool is unavailable right now."

/-- Ukrainian unknown-tool reply (`_handle_tool_calls`). -/
def ukUnavailableText : String := "Запитаний інструмент зараз недоступний."

/-- Python `x or default` for an optional state attribute against a string
default (used for `state.language or self._default_language`). -/
def pyOrDefault (l : Option Val) (default : String) : Val :=
  match l with
  | some v => if v.truthy then v else .str default
  | Option.none => .str default

/-- A normalized assistant tool-call record
(`_build_assistant_tool_call`). -/
structure AssistantToolCall where
  id : String
  type_ : String := "function"
  name : String
  arguments : String

/-- One outbound message of a model invocation. -/
structure MsgOut where
  role : String
  content : Option String := Option.none
  tool_calls : List AssistantToolCall := []
  tool_call_id : Option String := Option.none

/-- The orchestrator environment: the resilient model client
(`generate`), the tool runtime, and the abstracted serialization/clock
effects of `_render_user_content`. -/
structure OrcEnv where
  default_language : String := "uk"
  gen : List MsgOut → Option (List String) → Except PyExn Completion
  rt : ToolRuntime
  dumpsPretty : Val → String
  currentTimestamp : Val → String × String

/-- `_available_tools` / `tool_schemas()`: the advertised tool set, by
name. -/
def availableTools : Option (List String) := some registryNames

/-- `_build_messages`: system prompt followed by the stored history. -/
def build_messages (state : ConversationState) : List MsgOut :=
  { role := "system", content := some SYSTEM_PROMPT } ::
    state.history.map (fun h => { role := h.role, content := some h.content })

/-- `_safe_get_choice`: first choice of the completion, if any. -/
def safe_get_choice (completion : Completion) : Option Choice :=
  completion.choices.head?

/-- Text of one content item collected by `_extract_text`. -/
def itemText : ContentItem → Option String
  | .dictItem type_ text => if type_ = "text" then some text else Option.none
  | .strItem s => some s
  | .otherItem => Option.none

/-- `_extract_text` (`orchestrator.py`, lines 413-429). -/
def extract_text (message : ChatMessage) : String :=
  match message.content with
  | .str s => pyStrip s
  | .list items =>
      pyStrip (joinSep "\n" (((items.filterMap itemText).filter (fun p => p != ""))))
  | .none => ""

/-- `_fallback_reply` (`orchestrator.py`, lines 169-192).  Raises
`AttributeError` when the effective language is not a string
(`language.startswith`). -/
def fallback_reply (default_language : String) (state : ConversationState)
    (error : Option PyExn) : Except PyExn AgentReply :=
  match pyOrDefault state.language default_language with
  | .str s =>
      .ok { event := "send",
            data := if strStartsWith s "en" then enApologyText else defaultApologyText,
            context_updates :=
              match error with
              | some e => [("metadata", .dict [("last_error", .str e.name)])]
              | Option.none => [] }
  | _ => .error .attributeError

/-- `_tool_call_identifier` (`orchestrator.py`, lines 365-371). -/
def tool_call_identifier (call : ToolCall) (idx : Nat) : String :=
  match call.id with
  | some s => if s != "" then s else "tool_call_" ++ toString idx
  | Option.none => "tool_call_" ++ toString idx

/-- `_build_assistant_tool_call` (`orchestrator.py`, lines 373-401) for the
object-shaped calls of the OpenAI SDK (the dict-shaped and non-string
argument branches are for other transports and unreachable here). -/
def build_assistant_tool_call (call : ToolCall) (call_id : String) : AssistantToolCall :=
  let name := match call.function with
    | some f => f.name.getD ""
    | Option.none => ""
  let arguments := match call.function with
    | some f => f.arguments
    | Option.none => ""
  { id := call_id, name := name,
    arguments := if arguments = "" then "\x7b\x7d" else arguments }

/-- An `Optional[str]` attribute as a JSON value. -/
def optStrToVal : Option String → Val
  | some s => .str s
  | Option.none => .none

/-- `_render_user_content` (`orchestrator.py`, lines 450-475): user input
plus known context as a JSON block.  The `json.dumps(indent=2)`
serialization and `_current_timestamp` (system clock and `ZoneInfo`
database) are environment effects. -/
def render_user_content (env : OrcEnv) (payload : ChatbotMessage)
    (state : ConversationState) (language : Val) : String :=
  let tz_name : Val :=
    match dget state.metadata "timezone" with
    | some v => if v.truthy then v else optStrToVal payload.context.timezone
    | Option.none => optStrToVal payload.context.timezone
  let ts := env.currentTimestamp tz_name
  let user_payload : Val := .dict
    [("chat_id", .str payload.chat_id),
     ("user_id", optStrToVal payload.user_id),
     ("message_id", optStrToVal payload.message_id),
     ("language", language),
     ("slots", .dict state.slots),
     ("text", .str payload.text),
     ("timestamp", .dict [("iso", .str ts.1), ("timezone", .str ts.2)])]
  "Below is the latest customer input and known context.\n```json\n" ++
    env.dumpsPretty user_payload ++ "\n```"

/-- The language resolved by `_append_user_message`:
`state.language or payload.context.language or self._default_language`. -/
def resolved_user_language (env : OrcEnv) (payload : ChatbotMessage)
    (state : ConversationState) : Val :=
  let fromCtx : Val :=
    if optStrTruthy payload.context.language then .str (payload.context.language.getD "")
    else .str env.default_language
  match state.language with
  | some v => if v.truthy then v else fromCtx
  | Option.none => fromCtx

/-- The content string `_append_user_message` stores in history. -/
def user_msg_content (env : OrcEnv) (payload : ChatbotMessage)
    (state : ConversationState) : String :=
  render_user_content env payload state (resolved_user_language env payload state)

/-- `_append_user_message` (`orchestrator.py`, lines 431-438). -/
def append_user_message (env : OrcEnv) (payload : ChatbotMessage)
    (state : ConversationState) (now : Int) : ConversationState :=
  state.append_history "user" (user_msg_content env payload state)
    MAX_HISTORY_MESSAGES now

/-- `_maybe_store_assistant_reply` (`orchestrator.py`, lines 440-448). -/
def maybe_store_assistant_reply (reply : AgentReply) (state : ConversationState)
    (now : Int) : ConversationState :=
  if reply.event != "send" || reply.data == "" then state
  else state.append_history "assistant" reply.data MAX_HISTORY_MESSAGES now

/-- The localized unavailable-tool reply of `_handle_tool_calls`
(lines 225-234); `language.startswith("en")` raises `AttributeError` on a
non-string language. -/
def unknownToolReply (language : Val) : Except PyExn AgentReply :=
  match language with
  | .str s =>
      .ok { event := "send",
            data := if strStartsWith s "en" then enUnavailableText else ukUnavailableText,
            context_updates := [] }
  | _ => .error .attributeError

/-- Result of the dispatch loop of `_handle_tool_calls`: either an early
`return` (unknown tool, or a tool execution failure answered with the
fallback reply, either of which may itself raise), or the accumulated
`(call, result)` records and their update dicts. -/
inductive LoopOut where
  | earlyReturn (r : Except PyExn AgentReply)
  | done (pairs : List (ToolCall × ToolExecutionResult)) (ups : List Dict)

/-- The per-call dispatch loop of `_handle_tool_calls` (`orchestrator.py`,
lines 207-248): skip calls without a function name, translate
`UnknownToolError` into the localized unavailable reply, answer any other
tool failure with the fallback reply, and otherwise record the result and
apply its context updates to the working state immediately. -/
def toolLoop (env : OrcEnv) (language : Val) :
    List ToolCall → ConversationState → List (ToolCall × ToolExecutionResult) →
    List Dict → LoopOut × ConversationState
  | [], state, pairs, ups => (.done pairs ups, state)
  | call :: rest, state, pairs, ups =>
    let fname : Option String :=
      match call.function with
      | some f => f.name
      | Option.none => Option.none
    if !optStrTruthy fname then toolLoop env language rest state pairs ups
    else
      let arguments :=
        match call.function with
        | some f => f.arguments
        | Option.none => ""
      match execute_tool env.rt (fname.getD "") arguments state language with
      | .error (.unknownTool _) =>
          (.earlyReturn (unknownToolReply language), state)
      | .error (.exc e) =>
          (.earlyReturn (fallback_reply env.default_language state (some e)), state)
      | .ok result =>
          let state :=
            if !result.context_updates.isEmpty then state.apply_updates result.context_updates
            else state
          toolLoop env language rest state (pairs ++ [(call, result)])
            (ups ++ [result.context_updates])

/-- `_complete_with_tool_outputs` (`orchestrator.py`, lines 307-363):
second model round-trip over the tool outputs; `recurse` is the recursive
entry back into `_handle_tool_calls`. -/
def complete_with_tool_outputs (env : OrcEnv)
    (recurse : List ToolCall → ConversationState →
      Except PyExn AgentReply × ConversationState)
    (state : ConversationState) (assistant_calls : List AssistantToolCall)
    (tool_outputs : List (String × String)) (context_updates : Dict) :
    Except PyExn AgentReply × ConversationState :=
  let messages :=
    build_messages state ++
      [{ role := "assistant", content := Option.none, tool_calls := assistant_calls }] ++
      tool_outputs.map (fun o =>
        { role := "tool", content := some o.2, tool_call_id := some o.1 })
  let textFinish := fun (message : ChatMessage) (state : ConversationState) =>
    let reply_text := extract_text message
    if reply_text = "" then (fallback_reply env.default_language state Option.none, state)
    else ((.ok { event := "send", data := reply_text, context_updates := context_updates } :
      Except PyExn AgentReply), state)
  match env.gen messages Option.none with
  | .error e => (fallback_reply env.default_language state (some e), state)
  | .ok completion =>
    match safe_get_choice completion with
    | Option.none => (fallback_reply env.default_language state Option.none, state)
    | some choice =>
      let message := choice.message.getD ChatMessage.emptyMsg
      match message.tool_calls with
      | some calls =>
          if !calls.isEmpty then
            let rec_res := recurse calls state
            match rec_res.1 with
            | .error e => (.error e, rec_res.2)
            | .ok reply =>
                if !context_updates.isEmpty && !reply.context_updates.isEmpty then
                  match merge_context_updates [context_updates, reply.context_updates] with
                  | .ok merged => (.ok { reply with context_updates := merged }, rec_res.2)
                  | .error e => (.error e, rec_res.2)
                else if !context_updates.isEmpty && reply.context_updates.isEmpty then
                  (.ok { reply with context_updates := context_updates }, rec_res.2)
                else (.ok reply, rec_res.2)
          else textFinish message state
      | Option.none => textFinish message state

/-- The body of `_handle_tool_calls` (`orchestrator.py`, lines 199-298),
parameterized by the recursive re-entry used for a second round of tool
calls. -/
def handleBody (env : OrcEnv)
    (recurse : List ToolCall → ConversationState →
      Except PyExn AgentReply × ConversationState)
    (tool_calls : List ToolCall) (state : ConversationState) :
    Except PyExn AgentReply × ConversationState :=
  let language : Val := pyOrDefault state.language env.default_language
  match toolLoop env language tool_calls state [] [] with
  | (.earlyReturn r, state) => (r, state)
  | (.done pairs ups, state) =>
    let tool_results := pairs.map (fun p => p.2)
    if tool_results.isEmpty then (fallback_reply env.default_language state Option.none, state)
    else
      match merge_context_updates ups with
      | .error e => (.error e, state)
      | .ok context_updates =>
        match tool_results.find? (fun r => r.event != "send") with
        | some function_result =>
            (.ok { event := function_result.event, data := function_result.data,
                   context_updates := context_updates }, state)
        | Option.none =>
          let enumerated := pairs.enum
          let pp := enumerated.filter (fun x => x.2.2.post_process)
          let assistant_calls :=
            pp.map (fun x => build_assistant_tool_call x.2.1 (tool_call_identifier x.2.1 x.1))
          let tool_outputs :=
            pp.map (fun x => (tool_call_identifier x.2.1 x.1, x.2.2.data))
          if !tool_outputs.isEmpty then
            complete_with_tool_outputs env recurse state assistant_calls tool_outputs
              context_updates
          else
            let reply_text :=
              joinSep "\n\n" ((tool_results.map (fun r => r.data)).filter (fun d => d != ""))
            (.ok { event := "send", data := reply_text, context_updates := context_updates },
             state)

/-- `_handle_tool_calls` with the Python recursion depth made explicit:
exhausting it is the interpreter's `RecursionError`. -/
def handle_tool_calls (env : OrcEnv) :
    Nat → List ToolCall → ConversationState →
    Except PyExn AgentReply × ConversationState
  | 0, calls, state =>
      handleBody env (fun _ s => (.error (.other "RecursionError"), s)) calls state
  | fuel + 1, calls, state =>
      handleBody env (handle_tool_calls env fuel) calls state

/-- `_build_agent_reply` (`orchestrator.py`, lines 142-167). -/
def build_agent_reply (env : OrcEnv) (completion : Completion)
    (state : ConversationState) (fuel : Nat) :
    Except PyExn AgentReply × ConversationState :=
  match safe_get_choice completion with
  | Option.none => (fallback_reply env.default_language state Option.none, state)
  | some choice =>
    let message := choice.message.getD ChatMessage.emptyMsg
    let textPath := fun (state : ConversationState) =>
      let reply_text := extract_text message
      if reply_text = "" then (fallback_reply env.default_language state Option.none, state)
      else ((.ok { event := "send", data := reply_text, context_updates := [] } :
        Except PyExn AgentReply), state)
    match message.tool_calls with
    | some calls =>
        if !calls.isEmpty then handle_tool_calls env fuel calls state else textPath state
    | Option.none => textPath state

/-- The `try` block of `handle_turn` (`orchestrator.py`, lines 69-72):
append the rendered user message, invoke the model with the tool schemas
attached, and build the agent reply.  An `.error` outcome is an exception
escaping to the `except` handler; the state component carries every
mutation made before the failure. -/
def orchestrationBody (env : OrcEnv) (payload : ChatbotMessage)
    (state : ConversationState) (fuel : Nat) (now : Int) :
    Except PyExn AgentReply × ConversationState :=
  let state := append_user_message env payload state now
  match env.gen (build_messages state) availableTools with
  | .error e => (.error e, state)
  | .ok completion => build_agent_reply env completion state fuel

/-- `handle_turn` (`orchestrator.py`, lines 62-81): load state, run the
orchestration, fall back on any escaping exception, apply the merged
updates, store the assistant reply when textual, and persist.  The result
is `.error` only when even the fallback path raises. -/
def handle_turn (env : OrcEnv) (store : StoreModel) (payload : ChatbotMessage)
    (now : Int) (fuel : Nat) : Except PyExn (AgentReply × StoreModel) :=
  let loaded := store.load payload now
  let addr := loaded.1
  let store := loaded.2
  let state0 := (store.deref addr).getD (freshState payload.chat_id now)
  let res := orchestrationBody env payload state0 fuel now
  let finalR : Except PyExn AgentReply :=
    match res.1 with
    | .ok r => .ok r
    | .error e => fallback_reply env.default_language res.2 (some e)
  match finalR with
  | .error e => .error e
  | .ok reply =>
    let state := res.2
    let state :=
      if !reply.context_updates.isEmpty then state.apply_updates reply.context_updates
      else state
    let state := maybe_store_assistant_reply reply state now
    let store := mutateAt store addr (fun _ => state)
    .ok (reply, store.persistAddr addr now)

theorem dget_dinsert (d : Dict) (k : String) (v : Val) (k' : String) :
    dget (dinsert d k v) k' = if k = k' then some v else dget d k' := by
  induction d with
  | nil => simp [dinsert, dget]
  | cons hd tl ih =>
      obtain ⟨k₀, v₀⟩ := hd
      by_cases h₀ : k₀ = k
      · subst h₀
        by_cases h₁ : k₀ = k'
        · subst h₁; simp [dinsert, dget]
        · simp [dinsert, dget, h₁]
      · by_cases h₁ : k₀ = k'
        · subst h₁
          have hkk : ¬ k = k₀ := fun h => h₀ h.symm
          simp [dinsert, dget, h₀, hkk]
        · simp [dinsert, dget, h₀, h₁, ih]

theorem dget_isSome_dinsert (d : Dict) (k k' : String) (v : Val)
    (h : (dget d k').isSome) : (dget (dinsert d k v) k').isSome := by
  rw [dget_dinsert]
  split
  · simp
  · exact h

theorem dget_isSome_dupdate (d o : Dict) (k : String)
    (h : (dget d k).isSome) : (dget (dupdate d o) k).isSome := by
  induction o generalizing d with
  | nil => simpa [dupdate] using h
  | cons hd tl ih =>
      have : dupdate d (hd :: tl) = dupdate (dinsert d hd.1 hd.2) tl := by
        simp [dupdate]
      rw [this]
      exact ih _ (dget_isSome_dinsert _ _ _ _ h)

/-- C7: once the conversation state's language is non-empty,
`merge_inbound_context` never overwrites it, whatever language the inbound
context carries. -/
theorem language_sticky_on_inbound_merge (s : ConversationState) (ctx : ChatContext)
    (v : Val) (hlang : s.language = some v) (htruthy : v.truthy = true) :
    (s.merge_inbound_context ctx).language = some v := by
  have h1 : optValTruthy s.language = true := by
    rw [hlang]; simpa [optValTruthy] using htruthy
  unfold ConversationState.merge_inbound_context
  simp only [h1, Bool.not_true, Bool.and_false, if_false]
  split <;> split <;> simp [hlang]

theorem language_sticky_witness :
    (({ chat_id := "c1", language := some (.str "uk") } :
        ConversationState).merge_inbound_context
      { language := some "en", timezone := some "Europe/Kyiv",
        slots := [("a", .int 1)] }).language = some (.str "uk") :=
  language_sticky_on_inbound_merge _ _ _ rfl (by decide)

theorem generateAux_failed_attempts (call : Nat → CallOutcome) :
    ∀ (remaining callsMade : Nat) (e : PyExn) (k : Nat),
      generateAux call callsMade remaining = .failed e k →
      k = callsMade + remaining + 1 := by
  intro remaining
  induction remaining with
  | zero =>
      intro callsMade e k h
      unfold generateAux at h
      cases hc : call callsMade <;> rw [hc] at h <;> cases h
      omega
  | succ r ih =>
      intro callsMade e k h
      unfold generateAux at h
      cases hc : call callsMade <;> rw [hc] at h
      · cases h
      · have := ih (callsMade + 1) e k h
        omega
      · cases h

theorem generateAux_cancel_immediate (call : Nat → CallOutcome) :
    ∀ (n remaining callsMade : Nat),
      (∀ m, m < n → ∃ e, call (callsMade + m) = .fail e) →
      call (callsMade + n) = .cancelled →
      n ≤ remaining →
      generateAux call callsMade remaining = .cancelled (callsMade + n + 1) := by
  intro n
  induction n with
  | zero =>
      intro remaining callsMade _hfail hcancel _hle
      cases remaining <;> unfold generateAux <;>
        simp only [Nat.add_zero] at hcancel <;> rw [hcancel]
  | succ m ih =>
      intro remaining callsMade hfail hcancel hle
      obtain ⟨r, rfl⟩ : ∃ r, remaining = r + 1 := ⟨remaining - 1, by omega⟩
      obtain ⟨e, he⟩ := hfail 0 (by omega)
      unfold generateAux
      simp only [Nat.add_zero] at he
      rw [he]
      have := ih r (callsMade + 1)
        (fun m' hm' => by
          obtain ⟨e', he'⟩ := hfail (m' + 1) (by omega)
          exact ⟨e', by rw [← he']; ring_nf⟩)
        (by rw [← hcancel]; ring_nf)
        (by omega)
      rw [this]
      ring_nf

/-- C4: with `max_retries = 2`, all-failing transport calls make exactly 3
attempts (2 retries) and then the failure propagates; `generate` fails only
after exhausting its retries; and a cancellation aborts at once, without
consuming a retry. -/
theorem generate_retry_contract :
    (∀ (call : Nat → CallOutcome) (es : Nat → PyExn),
      (∀ n, call n = .fail (es n)) → generate call 2 = .failed (es 2) 3) ∧
    (∀ (call : Nat → CallOutcome) (max_retries : Nat) (e : PyExn) (k : Nat),
      generate call max_retries = .failed e k → k = max_retries + 1) ∧
    (∀ (call : Nat → CallOutcome) (max_retries n : Nat),
      (∀ m, m < n → ∃ e, call m = .fail e) →
      call n = .cancelled →
      n ≤ max_retries →
      generate call max_retries = .cancelled (n + 1)) := by
  refine ⟨?_, ?_, ?_⟩
  · intro call es h
    unfold generate generateAux
    rw [h 0]
    unfold generateAux
    rw [h 1]
    unfold generateAux
    rw [h 2]
  · intro call max_retries e k h
    have := generateAux_failed_attempts call max_retries 0 e k h
    omega
  · intro call max_retries n hfail hcancel hle
    have := generateAux_cancel_immediate call n max_retries 0
      (fun m hm => by simpa using hfail m hm)
      (by simpa using hcancel) hle
    simpa using this

theorem generate_retry_contract_witness :
    generate (fun _ => .fail (.other "UpstreamError")) 2 =
      .failed (.other "UpstreamError") 3 :=
  generate_retry_contract.1 (fun _ => .fail (.other "UpstreamError"))
    (fun _ => .other "UpstreamError") (fun _ => rfl)

theorem get?_append_left {α : Type} (l m : List α) (i : Nat) (h : i < l.length) :
    (l ++ m).get? i = l.get? i := by
  induction l generalizing i with
  | nil => simp at h
  | cons x xs ih =>
      cases i with
      | zero => simp
      | succ j =>
          simp only [List.cons_append, List.get?]
          exact ih j (by simpa using h)

theorem get?_append_length {α : Type} (l : List α) (x : α) :
    (l ++ [x]).get? l.length = some x := by
  induction l with
  | nil => simp
  | cons y ys ih => simp [ih]

theorem listModify_length {α : Type} (l : List α) (i : Nat) (f : α → α) :
    (listModify l i f).length = l.length := by
  induction l generalizing i with
  | nil => simp [listModify]
  | cons x xs ih =>
      cases i with
      | zero => simp [listModify]
      | succ j => simp [listModify, ih]

theorem get?_listModify_self {α : Type} (l : List α) (i : Nat) (f : α → α) :
    (listModify l i f).get? i = (l.get? i).map f := by
  induction l generalizing i with
  | nil => simp [listModify]
  | cons x xs ih =>
      cases i with
      | zero => simp [listModify]
      | succ j => simpa [listModify] using ih j

theorem get?_listModify_ne {α : Type} (l : List α) (i j : Nat) (f : α → α)
    (h : i ≠ j) : (listModify l i f).get? j = l.get? j := by
  induction l generalizing i j with
  | nil => simp [listModify]
  | cons x xs ih =>
      cases i with
      | zero =>
          cases j with
          | zero => exact absurd rfl h
          | succ j' => simp [listModify]
      | succ i' =>
          cases j with
          | zero => simp [listModify]
          | succ j' => simpa [listModify] using ih i' j' (by omega)

theorem lookupAddr_insertAddr_self (m : List (String × Nat)) (k : String) (a : Nat) :
    lookupAddr (insertAddr m k a) k = some a := by
  induction m with
  | nil => simp [insertAddr, lookupAddr]
  | cons hd tl ih =>
      obtain ⟨k', a'⟩ := hd
      by_cases h : k' = k
      · simp [insertAddr, lookupAddr, h]
      · simp [insertAddr, lookupAddr, h, ih]

theorem get?_isSome_of_lt {α : Type} (l : List α) (i : Nat) (h : i < l.length) :
    ∃ x, l.get? i = some x := by
  induction l generalizing i with
  | nil => simp at h
  | cons y ys ih =>
      cases i with
      | zero => exact ⟨y, rfl⟩
      | succ j => exact ih j (by simpa using h)

theorem lt_length_of_get?_eq_some {α : Type} (l : List α) (i : Nat) (x : α)
    (h : l.get? i = some x) : i < l.length := by
  induction l generalizing i with
  | nil => simp [List.get?] at h
  | cons y ys ih =>
      cases i with
      | zero => simp
      | succ j =>
          have := ih j (by simpa using h)
          simpa using Nat.succ_lt_succ this


theorem loadSelect_lt (st : StoreModel) (payload : ChatbotMessage) (now : Int) :
    (st.loadSelect payload now).1 < (st.loadSelect payload now).2.length := by
  unfold StoreModel.loadSelect
  cases hl : lookupAddr st.states payload.chat_id with
  | none => simp
  | some a =>
      dsimp only
      cases hg : st.heap.get? a with
      | none => simp
      | some s =>
          dsimp only
          by_cases hexp : now - s.last_updated > HISTORY_TTL
          · rw [if_pos hexp]; simp
          · rw [if_neg hexp]
            exact lt_length_of_get?_eq_some _ _ _ hg

/-- Shape of `ConversationStateStore.load`: a working heap `heap₁` and the
in-range address `addr` of the live stored object, such that the store
binds the conversation id to `addr` and returns the address of a newly
appended copy of the object at `addr`. -/
theorem load_shape (st : StoreModel) (payload : ChatbotMessage) (now : Int) :
    ∃ (heap₁ : List ConversationState) (addr : Nat),
      addr < heap₁.length ∧
      st.load payload now =
        (heap₁.length,
          { heap := heap₁ ++ [(heap₁.get? addr).getD (freshState payload.chat_id now)],
            states := insertAddr st.states payload.chat_id addr }) := by
  refine ⟨listModify (st.loadSelect payload now).2 (st.loadSelect payload now).1
      (fun s => (s.merge_inbound_context payload.context).touch now),
    (st.loadSelect payload now).1, ?_, rfl⟩
  rw [listModify_length]
  exact loadSelect_lt st payload now

theorem storedState_after_load (st : StoreModel) (payload : ChatbotMessage) (now : Int)
    (heap₁ : List ConversationState) (addr : Nat) (hlt : addr < heap₁.length)
    (hload : st.load payload now =
      (heap₁.length,
        { heap := heap₁ ++ [(heap₁.get? addr).getD (freshState payload.chat_id now)],
          states := insertAddr st.states payload.chat_id addr })) :
    storedState (st.load payload now).2 payload.chat_id = heap₁.get? addr := by
  rw [hload]
  unfold storedState
  simp only [lookupAddr_insertAddr_self, Option.some_bind]
  exact get?_append_left _ _ _ hlt

/-- C8: the store never exposes its live object.  (a) After `load`, the
stored state for the conversation id equals by value the snapshot behind
the returned address, and mutating the snapshot object leaves the stored
state unchanged.  (b) `persist` stores a copy: mutating the caller's
object afterwards leaves the stored state unchanged. -/
theorem store_copy_out_semantics :
    (∀ (st : StoreModel) (payload : ChatbotMessage) (now : Int)
       (f : ConversationState → ConversationState),
      ((st.load payload now).2.deref (st.load payload now).1 =
        storedState (st.load payload now).2 payload.chat_id) ∧
      storedState (mutateAt (st.load payload now).2 (st.load payload now).1 f)
          payload.chat_id =
        storedState (st.load payload now).2 payload.chat_id) ∧
    (∀ (st : StoreModel) (addr : Nat) (now : Int) (s : ConversationState)
       (f : ConversationState → ConversationState),
      st.heap.get? addr = some s →
      storedState (mutateAt (st.persistAddr addr now) addr f) s.chat_id =
        storedState (st.persistAddr addr now) s.chat_id) := by
  constructor
  · intro st payload now f
    obtain ⟨heap₁, addr, hlt, hload⟩ := load_shape st payload now
    obtain ⟨x, hx⟩ := get?_isSome_of_lt heap₁ addr hlt
    have hstored : storedState (st.load payload now).2 payload.chat_id = heap₁.get? addr :=
      storedState_after_load st payload now heap₁ addr hlt hload
    constructor
    · rw [hstored, hload]
      unfold StoreModel.deref
      simp only
      rw [get?_append_length, hx]
      rfl
    · rw [hstored, hload]
      unfold mutateAt storedState
      simp only [lookupAddr_insertAddr_self, Option.some_bind]
      rw [get?_listModify_ne _ _ _ _ (by omega)]
      exact get?_append_left _ _ _ hlt
  · intro st addr now s f hget
    have haddr : addr < st.heap.length := lt_length_of_get?_eq_some _ _ _ hget
    unfold StoreModel.persistAddr
    rw [hget]
    unfold mutateAt storedState
    have hcid : (s.touch now).chat_id = s.chat_id := rfl
    simp only [hcid, lookupAddr_insertAddr_self, Option.some_bind]
    rw [get?_listModify_ne _ _ _ _ (by rw [listModify_length]; omega)]

theorem store_copy_out_witness :
    storedState
        (mutateAt (({ heap := [{ chat_id := "c0" }], states := [("c0", 0)] } :
            StoreModel).persistAddr 0 5) 0
          (fun s => { s with slots := [("x", .int 1)] })) "c0" =
      storedState (({ heap := [{ chat_id := "c0" }], states := [("c0", 0)] } :
          StoreModel).persistAddr 0 5) "c0" :=
  store_copy_out_semantics.2 _ 0 5 { chat_id := "c0" } _ rfl

theorem merge_inbound_fields (s : ConversationState) (c : ChatContext) :
    (s.merge_inbound_context c).chat_id = s.chat_id ∧
    (s.merge_inbound_context c).history = s.history ∧
    (s.merge_inbound_context c).last_updated = s.last_updated ∧
    (s.merge_inbound_context c).language =
      (if optStrTruthy c.language && !optValTruthy s.language then
        some (.str (c.language.getD "")) else s.language) ∧
    (s.merge_inbound_context c).slots =
      (if !c.slots.isEmpty then dupdate s.slots c.slots else s.slots) ∧
    (s.merge_inbound_context c).metadata =
      (if optStrTruthy c.timezone then
        dsetdefault s.metadata "timezone" (.str (c.timezone.getD "")) else s.metadata) := by
  unfold ConversationState.merge_inbound_context
  split <;> split <;> split <;> simp_all

theorem loadSelect_miss (st : StoreModel) (payload : ChatbotMessage) (now : Int)
    (hmiss : ∀ a s, lookupAddr st.states payload.chat_id = some a →
      st.heap.get? a = some s → now - s.last_updated > HISTORY_TTL) :
    st.loadSelect payload now =
      (st.heap.length, st.heap ++ [freshState payload.chat_id now]) := by
  unfold StoreModel.loadSelect
  cases hl : lookupAddr st.states payload.chat_id with
  | none => rfl
  | some a =>
      dsimp only
      cases hg : st.heap.get? a with
      | none => rfl
      | some s =>
          dsimp only
          rw [if_pos (hmiss a s hl hg)]

theorem loadVal_miss (st : StoreModel) (payload : ChatbotMessage) (now : Int)
    (hmiss : ∀ a s, lookupAddr st.states payload.chat_id = some a →
      st.heap.get? a = some s → now - s.last_updated > HISTORY_TTL) :
    loadVal st payload now =
      ((freshState payload.chat_id now).merge_inbound_context payload.context).touch now := by
  unfold loadVal StoreModel.load StoreModel.deref
  rw [loadSelect_miss st payload now hmiss]
  dsimp only
  rw [get?_append_length]
  dsimp only [Option.getD_some]
  rw [get?_listModify_self, get?_append_length]
  rfl

/-- C6 counterexample: a stored state older than the TTL and an inbound
context carrying `language="uk"` (the pydantic default).  `load` does
recreate the state for the same id, but it hydrates it with the inbound
context before returning, so the returned snapshot has a language — the
claim says it has none. -/
theorem ttl_recreation_counterexample :
    ((10000 : Int) -
        ({ chat_id := "c1", slots := [("a", .int 1)], last_updated := 0 } :
          ConversationState).last_updated > HISTORY_TTL) ∧
    (loadVal
        { heap := [{ chat_id := "c1", slots := [("a", .int 1)], last_updated := 0 }],
          states := [("c1", 0)] }
        { chat_id := "c1", text := "hi", context := { language := some "uk" } }
        10000).language = some (.str "uk") ∧
    (loadVal
        { heap := [{ chat_id := "c1", slots := [("a", .int 1)], last_updated := 0 }],
          states := [("c1", 0)] }
        { chat_id := "c1", text := "hi", context := { language := some "uk" } }
        10000).language ≠ Option.none := by
  refine ⟨by decide, rfl, ?_⟩
  intro h
  rw [show (loadVal
        { heap := [{ chat_id := "c1", slots := [("a", .int 1)], last_updated := 0 }],
          states := [("c1", 0)] }
        { chat_id := "c1", text := "hi", context := { language := some "uk" } }
        10000).language = some (.str "uk") from rfl] at h
  cases h

/-- C6 (amended): when `load` finds no stored state, or one older than the
TTL, the returned snapshot is a freshly created state for the identical
conversation id — empty history — hydrated only with the inbound context:
its language, slots and timezone metadata are exactly what the request's
context supplies, and are empty whenever the context supplies nothing. -/
theorem ttl_recreation_amended (st : StoreModel) (payload : ChatbotMessage) (now : Int)
    (hmiss : ∀ a s, lookupAddr st.states payload.chat_id = some a →
      st.heap.get? a = some s → now - s.last_updated > HISTORY_TTL) :
    loadVal st payload now =
      ((freshState payload.chat_id now).merge_inbound_context payload.context).touch now ∧
    (loadVal st payload now).chat_id = payload.chat_id ∧
    (loadVal st payload now).history = [] ∧
    (payload.context.language = Option.none →
      (loadVal st payload now).language = Option.none) ∧
    (payload.context.slots = [] → (loadVal st payload now).slots = []) ∧
    (payload.context.timezone = Option.none →
      (loadVal st payload now).metadata = []) := by
  have hval := loadVal_miss st payload now hmiss
  obtain ⟨hcid, hhist, _hlast, hlang, hslots, hmeta⟩ :=
    merge_inbound_fields (freshState payload.chat_id now) payload.context
  refine ⟨hval, ?_, ?_, ?_, ?_, ?_⟩
  · rw [hval]; exact hcid
  · rw [hval]; exact hhist
  · intro hnone
    rw [hval]
    show (((freshState payload.chat_id now).merge_inbound_context payload.context)).language
      = Option.none
    rw [hlang, hnone]
    simp [optStrTruthy, freshState]
  · intro hempty
    rw [hval]
    show (((freshState payload.chat_id now).merge_inbound_context payload.context)).slots = []
    rw [hslots, hempty]
    simp [freshState, dupdate]
  · intro hnone
    rw [hval]
    show (((freshState payload.chat_id now).merge_inbound_context payload.context)).metadata = []
    rw [hmeta, hnone]
    simp [optStrTruthy, freshState]

theorem ttl_recreation_witness :
    (loadVal ({} : StoreModel) { chat_id := "c9", text := "hi" } 50).chat_id = "c9" ∧
    (loadVal ({} : StoreModel) { chat_id := "c9", text := "hi" } 50).history = [] ∧
    (loadVal ({} : StoreModel) { chat_id := "c9", text := "hi" } 50).language = Option.none :=
  ⟨(ttl_recreation_amended {} { chat_id := "c9", text := "hi" } 50
      (fun _a _s h1 _ => Option.noConfusion h1)).2.1,
   (ttl_recreation_amended {} { chat_id := "c9", text := "hi" } 50
      (fun _a _s h1 _ => Option.noConfusion h1)).2.2.1,
   (ttl_recreation_amended {} { chat_id := "c9", text := "hi" } 50
      (fun _a _s h1 _ => Option.noConfusion h1)).2.2.2.1 rfl⟩

theorem ff_fold_slots (u : Dict) (acc : ConversationState) :
    (u.foldl applyFreeFormStep acc).slots = acc.slots := by
  induction u generalizing acc with
  | nil => rfl
  | cons kv rest ih =>
      rw [List.foldl_cons, ih]
      unfold applyFreeFormStep
      split <;> rfl

theorem ff_fold_language (u : Dict) (acc : ConversationState) :
    (u.foldl applyFreeFormStep acc).language = acc.language := by
  induction u generalizing acc with
  | nil => rfl
  | cons kv rest ih =>
      rw [List.foldl_cons, ih]
      unfold applyFreeFormStep
      split <;> rfl

theorem ff_fold_history (u : Dict) (acc : ConversationState) :
    (u.foldl applyFreeFormStep acc).history = acc.history := by
  induction u generalizing acc with
  | nil => rfl
  | cons kv rest ih =>
      rw [List.foldl_cons, ih]
      unfold applyFreeFormStep
      split <;> rfl

theorem ff_fold_chat_id (u : Dict) (acc : ConversationState) :
    (u.foldl applyFreeFormStep acc).chat_id = acc.chat_id := by
  induction u generalizing acc with
  | nil => rfl
  | cons kv rest ih =>
      rw [List.foldl_cons, ih]
      unfold applyFreeFormStep
      split <;> rfl

theorem ff_fold_frame (u : Dict) (acc : ConversationState) (k : String)
    (h : dget u k = Option.none) :
    dget (u.foldl applyFreeFormStep acc).metadata k = dget acc.metadata k := by
  induction u generalizing acc with
  | nil => rfl
  | cons kv rest ih =>
      obtain ⟨k₀, v₀⟩ := kv
      have hk : ¬ k₀ = k := by
        intro hk
        rw [dget, if_pos hk] at h
        cases h
      have hrest : dget rest k = Option.none := by
        rw [dget, if_neg hk] at h
        exact h
      rw [List.foldl_cons, ih _ hrest]
      unfold applyFreeFormStep
      split
      · rfl
      · dsimp only
        rw [dget_dinsert, if_neg hk]

theorem ff_fold_val (u : Dict) (acc : ConversationState) (k : String) (v : Val)
    (hnodup : nodupKeys u = true) (hget : dget u k = some v)
    (h1 : k ≠ "language") (h2 : k ≠ "slots") (h3 : k ≠ "metadata") :
    dget (u.foldl applyFreeFormStep acc).metadata k = some v := by
  induction u generalizing acc with
  | nil => cases hget
  | cons kv rest ih =>
      obtain ⟨k₀, v₀⟩ := kv
      have hnodup' : (dget rest k₀).isNone = true ∧ nodupKeys rest = true := by
        unfold nodupKeys at hnodup
        exact ⟨by
          cases hiso : (dget rest k₀).isNone
          · rw [hiso] at hnodup; cases hnodup
          · rfl, by
          cases hrest : nodupKeys rest
          · rw [hrest] at hnodup; simp at hnodup
          · rfl⟩
      by_cases hk : k₀ = k
      · subst hk
        have hv : v₀ = v := by
          rw [dget, if_pos rfl] at hget
          cases hget; rfl
        subst hv
        rw [List.foldl_cons]
        have hrestnone : dget rest k₀ = Option.none := by
          cases hd : dget rest k₀
          · rfl
          · rw [hd] at hnodup'; simp at hnodup'
        rw [ff_fold_frame rest _ k₀ hrestnone]
        unfold applyFreeFormStep
        rw [if_neg (by simp [h1, h2, h3])]
        dsimp only
        rw [dget_dinsert, if_pos rfl]
      · have hrest : dget rest k = some v := by
          rw [dget, if_neg hk] at hget
          exact hget
        rw [List.foldl_cons]
        exact ih _ hnodup'.2 hrest

theorem ff_fold_isSome (u : Dict) (acc : ConversationState) (k : String)
    (h : (dget acc.metadata k).isSome) :
    (dget (u.foldl applyFreeFormStep acc).metadata k).isSome := by
  induction u generalizing acc with
  | nil => exact h
  | cons kv rest ih =>
      rw [List.foldl_cons]
      refine ih _ ?_
      unfold applyFreeFormStep
      split
      · exact h
      · dsimp only
        exact dget_isSome_dinsert _ _ _ _ h

theorem applyLanguagePhase_fields (s : ConversationState) (u : Dict) :
    (applyLanguagePhase s u).slots = s.slots ∧
    (applyLanguagePhase s u).metadata = s.metadata ∧
    (applyLanguagePhase s u).history = s.history ∧
    (applyLanguagePhase s u).chat_id = s.chat_id := by
  unfold applyLanguagePhase
  cases dget u "language" with
  | none => exact ⟨rfl, rfl, rfl, rfl⟩
  | some v =>
      dsimp only
      split <;> exact ⟨rfl, rfl, rfl, rfl⟩

theorem applySlotsPhase_fields (s : ConversationState) (u : Dict) :
    (applySlotsPhase s u).metadata = s.metadata ∧
    (applySlotsPhase s u).language = s.language ∧
    (applySlotsPhase s u).history = s.history ∧
    (applySlotsPhase s u).chat_id = s.chat_id := by
  unfold applySlotsPhase
  cases hv : dget u "slots" with
  | none => exact ⟨rfl, rfl, rfl, rfl⟩
  | some v => cases v <;> exact ⟨rfl, rfl, rfl, rfl⟩

theorem applySlotsPhase_isSome (s : ConversationState) (u : Dict) (k : String)
    (h : (dget s.slots k).isSome) : (dget (applySlotsPhase s u).slots k).isSome := by
  unfold applySlotsPhase
  cases hv : dget u "slots" with
  | none => exact h
  | some v => cases v <;> first
      | exact h
      | exact dget_isSome_dupdate _ _ _ h

theorem applyMetadataPhase_fields (s : ConversationState) (u : Dict) :
    (applyMetadataPhase s u).slots = s.slots ∧
    (applyMetadataPhase s u).language = s.language ∧
    (applyMetadataPhase s u).history = s.history ∧
    (applyMetadataPhase s u).chat_id = s.chat_id := by
  unfold applyMetadataPhase
  cases hv : dget u "metadata" with
  | none => exact ⟨rfl, rfl, rfl, rfl⟩
  | some v => cases v <;> exact ⟨rfl, rfl, rfl, rfl⟩

theorem applyMetadataPhase_isSome (s : ConversationState) (u : Dict) (k : String)
    (h : (dget s.metadata k).isSome) : (dget (applyMetadataPhase s u).metadata k).isSome := by
  unfold applyMetadataPhase
  cases hv : dget u "metadata" with
  | none => exact h
  | some v => cases v <;> first
      | exact h
      | exact dget_isSome_dupdate _ _ _ h

/-- C9: `apply_updates` stores every free-form top-level key (anything but
`language`, `slots`, `metadata`) into the state's metadata under the same
key, and never removes keys already present in `slots` or `metadata` —
they are only added to or overwritten. -/
theorem apply_updates_metadata_contract (s : ConversationState) (u : Dict)
    (hnodup : nodupKeys u = true) :
    (∀ k v, k ≠ "language" → k ≠ "slots" → k ≠ "metadata" → dget u k = some v →
      dget (s.apply_updates u).metadata k = some v) ∧
    (∀ k, (dget s.slots k).isSome → (dget (s.apply_updates u).slots k).isSome) ∧
    (∀ k, (dget s.metadata k).isSome → (dget (s.apply_updates u).metadata k).isSome) := by
  unfold ConversationState.apply_updates
  by_cases hemp : u.isEmpty
  · rw [if_pos hemp]
    have : u = [] := by
      cases u
      · rfl
      · simp [List.isEmpty] at hemp
    subst this
    refine ⟨?_, ?_, ?_⟩
    · intro k v _ _ _ hget
      cases hget
    · intro k h
      exact h
    · intro k h
      exact h
  · rw [if_neg hemp]
    dsimp only
    refine ⟨?_, ?_, ?_⟩
    · intro k v h1 h2 h3 hget
      exact ff_fold_val u _ k v hnodup hget h1 h2 h3
    · intro k h
      rw [ff_fold_slots]
      obtain ⟨hms, _, _, _⟩ := applyMetadataPhase_fields
        (applySlotsPhase (applyLanguagePhase s u) u) u
      rw [hms]
      exact applySlotsPhase_isSome _ _ _ (by
        obtain ⟨hls, _, _, _⟩ := applyLanguagePhase_fields s u
        rw [hls]
        exact h)
    · intro k h
      refine ff_fold_isSome _ _ _ ?_
      refine applyMetadataPhase_isSome _ _ _ ?_
      obtain ⟨hsm, _, _, _⟩ := applySlotsPhase_fields (applyLanguagePhase s u) u
      rw [hsm]
      obtain ⟨_, hlm, _, _⟩ := applyLanguagePhase_fields s u
      rw [hlm]
      exact h

theorem apply_updates_metadata_witness :
    (dget ((({ chat_id := "c1", slots := [("a", Val.int 1)],
                 metadata := [("m", Val.str "x")] } : ConversationState).apply_updates
        [("foo", Val.int 7), ("slots", Val.dict [("b", Val.int 2)])]).metadata) "foo"
      = some (Val.int 7)) ∧
    ((dget ((({ chat_id := "c1", slots := [("a", Val.int 1)],
                  metadata := [("m", Val.str "x")] } : ConversationState).apply_updates
        [("foo", Val.int 7), ("slots", Val.dict [("b", Val.int 2)])]).slots) "a").isSome) ∧
    ((dget ((({ chat_id := "c1", slots := [("a", Val.int 1)],
                  metadata := [("m", Val.str "x")] } : ConversationState).apply_updates
        [("foo", Val.int 7), ("slots", Val.dict [("b", Val.int 2)])]).metadata) "m").isSome) :=
  ⟨(apply_updates_metadata_contract _ _ (by decide)).1 "foo" (Val.int 7)
      (by decide) (by decide) (by decide) rfl,
   (apply_updates_metadata_contract _ _ (by decide)).2.1 "a" rfl,
   (apply_updates_metadata_contract _ _ (by decide)).2.2 "m" rfl⟩

/-- C10: for a registered tool with parseable arguments, `execute_tool`
normalizes every supported executor return shape into a
`ToolExecutionResult` whose `data` is a string (`None` becomes `""`,
non-strings are JSON-serialized or stringified) and whose `event` is
non-empty (`"send"` when the tool left it empty); an old-style
`(text, updates)` tuple becomes a `"send"` result without post-processing;
any other shape raises a `TypeError`. -/
theorem execute_tool_normalization (rt : ToolRuntime) (name arguments : String)
    (state : ConversationState) (language : Val) (pargs : Dict)
    (hreg : registryNames.contains name = true)
    (hparse : (if arguments = "" then some ([] : Dict) else rt.parse arguments)
      = some pargs) :
    (∀ t, execute_tool rt name arguments state language = .ok t → t.event ≠ "") ∧
    (∀ r, rt.run name pargs state language = .res r →
      execute_tool rt name arguments state language = .ok
        { event := if r.event = "" then "send" else r.event,
          data := if r.post_process && !r.data.isStr then jsonDumps r.data
                  else match r.data with
                    | .none => ""
                    | v => pyStrOf v,
          context_updates := r.context_updates.getD [],
          post_process := r.post_process }) ∧
    (∀ text updates, rt.run name pargs state language = .tuple2 text updates →
      execute_tool rt name arguments state language = .ok
        { event := "send", data := pyStrOf (if text.truthy then text else .str ""),
          context_updates := updates.getD [], post_process := false }) ∧
    (rt.run name pargs state language = .badShape →
      execute_tool rt name arguments state language =
        .error (.exc (.typeError "unsupported result type"))) := by
  have hbase : execute_tool rt name arguments state language =
      (match rt.run name pargs state language with
       | .raises e => .error (.exc e)
       | .res r =>
           .ok { event := if r.event = "" then "send" else r.event,
                 data := if r.post_process && !r.data.isStr then jsonDumps r.data
                         else match r.data with
                           | .none => ""
                           | v => pyStrOf v,
                 context_updates := r.context_updates.getD [],
                 post_process := r.post_process }
       | .tuple2 text updates =>
           .ok { event := "send", data := pyStrOf (if text.truthy then text else .str ""),
                 context_updates := updates.getD [], post_process := false }
       | .badShape => .error (.exc (.typeError "unsupported result type"))) := by
    unfold execute_tool
    rw [hreg, hparse]
    rw [if_neg (by decide)]
  refine ⟨?_, ?_, ?_, ?_⟩
  · intro t ht
    rw [hbase] at ht
    cases hr : rt.run name pargs state language <;> rw [hr] at ht
    · cases ht
      show (if _ = "" then "send" else _) ≠ ""
      split
      · decide
      · assumption
    · cases ht
      simp
    · cases ht
    · cases ht
  · intro r hr
    rw [hbase, hr]
  · intro text updates hr
    rw [hbase, hr]
  · intro hr
    rw [hbase, hr]

theorem execute_tool_normalization_witness :
    execute_tool
        { parse := fun _ => Option.none,
          run := fun _ _ _ _ => .res { event := "", data := Val.str "hello",
                                       context_updates := Option.none,
                                       post_process := false } }
        "get_balance" "" (freshState "c1" 0) (.str "uk") =
      .ok { event := "send", data := "hello", context_updates := [],
            post_process := false } :=
  (execute_tool_normalization _ "get_balance" "" (freshState "c1" 0) (.str "uk") []
      (by decide) rfl).2.1
    { event := "", data := Val.str "hello", context_updates := Option.none,
      post_process := false } rfl

theorem drop_append_of_le {α : Type} (l m : List α) (k : Nat) (h : k ≤ l.length) :
    (l ++ m).drop k = l.drop k ++ m := by
  induction l generalizing k with
  | nil =>
      have : k = 0 := by simpa using h
      subst this
      simp
  | cons x xs ih =>
      cases k with
      | zero => simp
      | succ j => simpa using ih j (by simpa using h)

theorem takeLast_concat_tail {α : Type} (l : List α) (u : α) (n : Nat) (h : 1 ≤ n) :
    ∃ l', takeLast (l ++ [u]) n = l' ++ [u] := by
  unfold takeLast
  refine ⟨l.drop ((l ++ [u]).length - n), ?_⟩
  exact drop_append_of_le l [u] _ (by simp; omega)

theorem mem_takeLast_pen {α : Type} (l : List α) (u a : α) (n : Nat) (h : 2 ≤ n) :
    u ∈ takeLast (l ++ [u, a]) n := by
  unfold takeLast
  rw [drop_append_of_le l [u, a] _ (by simp; omega)]
  simp

theorem append_history_fields (s : ConversationState) (role content : String)
    (mm : Nat) (now : Int) :
    (s.append_history role content mm now).language = s.language ∧
    (s.append_history role content mm now).chat_id = s.chat_id ∧
    (s.append_history role content mm now).slots = s.slots ∧
    (s.append_history role content mm now).metadata = s.metadata := by
  unfold ConversationState.append_history
  split
  · exact ⟨rfl, rfl, rfl, rfl⟩
  · exact ⟨rfl, rfl, rfl, rfl⟩

theorem append_history_tail (s : ConversationState) (role content : String)
    (mm : Nat) (now : Int) (hc : ¬ content = "") (hmm : 1 ≤ mm) :
    ∃ l', (s.append_history role content mm now).history =
      l' ++ [({ role := role, content := content } : HistMsg)] := by
  unfold ConversationState.append_history
  rw [if_neg hc]
  dsimp only
  split
  · exact takeLast_concat_tail s.history { role := role, content := content } mm hmm
  · exact ⟨s.history, rfl⟩

theorem mem_append_history (s : ConversationState) (u : HistMsg) (l' : List HistMsg)
    (role d : String) (mm : Nat) (now : Int)
    (hh : s.history = l' ++ [u]) (hmm : 2 ≤ mm) :
    u ∈ (s.append_history role d mm now).history := by
  unfold ConversationState.append_history
  split
  · rw [hh]; simp
  · dsimp only
    split
    · rw [hh, List.append_assoc]
      exact mem_takeLast_pen l' u { role := role, content := d } mm hmm
    · rw [hh]
      simp

theorem execute_tool_unknown (rt : ToolRuntime) (n arguments : String)
    (state : ConversationState) (language : Val)
    (hreg : registryNames.contains n = false) :
    execute_tool rt n arguments state language =
      .error (.unknownTool ("Tool \x27" ++ n ++ "\x27 is not registered.")) := by
  unfold execute_tool
  rw [hreg]
  rw [if_pos (by decide)]

theorem load_addr_lt (st : StoreModel) (payload : ChatbotMessage) (now : Int) :
    (st.load payload now).1 < (st.load payload now).2.heap.length := by
  unfold StoreModel.load
  dsimp only
  simp

theorem storedState_persist_mutate (st : StoreModel) (addr : Nat)
    (s : ConversationState) (now : Int) (cid : String)
    (h : addr < st.heap.length) (hkey : s.chat_id = cid) :
    storedState ((mutateAt st addr (fun _ => s)).persistAddr addr now) cid =
      some (s.touch now) := by
  subst hkey
  unfold mutateAt StoreModel.persistAddr
  dsimp only
  have hget : (listModify st.heap addr (fun _ => s)).get? addr = some s := by
    rw [get?_listModify_self]
    obtain ⟨x, hx⟩ := get?_isSome_of_lt st.heap addr h
    rw [hx]
    rfl
  rw [hget]
  unfold storedState
  have hcid : (s.touch now).chat_id = s.chat_id := rfl
  simp only [hcid, lookupAddr_insertAddr_self, Option.some_bind]
  rw [get?_append_length]

theorem toolLoop_unknown (env : OrcEnv) (lang : String) (state : ConversationState)
    (call : ToolCall) (f : ToolCallFunction) (n : String)
    (hfn : call.function = some f) (hname : f.name = some n) (hn : n ≠ "")
    (hreg : registryNames.contains n = false) :
    toolLoop env (.str lang) [call] state [] [] =
      (.earlyReturn (.ok { event := "send",
                           data := if strStartsWith lang "en" then enUnavailableText
                                   else ukUnavailableText,
                           context_updates := [] }), state) := by
  unfold toolLoop
  rw [hfn]
  dsimp only
  rw [hname]
  have ht : optStrTruthy (some n) = true := by
    simp [optStrTruthy, hn]
  rw [ht]
  rw [if_neg (by decide)]
  rw [show ((some n).getD "" : String) = n from rfl]
  rw [execute_tool_unknown env.rt n f.arguments state (.str lang) hreg]
  rfl

theorem handle_tool_calls_unknown (env : OrcEnv) (fuel : Nat)
    (state : ConversationState) (call : ToolCall) (f : ToolCallFunction)
    (n lang : String)
    (hfn : call.function = some f) (hname : f.name = some n) (hn : n ≠ "")
    (hreg : registryNames.contains n = false)
    (hlang : pyOrDefault state.language env.default_language = .str lang) :
    handle_tool_calls env fuel [call] state =
      (.ok { event := "send",
             data := if strStartsWith lang "en" then enUnavailableText
                     else ukUnavailableText,
             context_updates := [] }, state) := by
  have hbody : ∀ recurse, handleBody env recurse [call] state =
      (.ok { event := "send",
             data := if strStartsWith lang "en" then enUnavailableText
                     else ukUnavailableText,
             context_updates := [] }, state) := by
    intro recurse
    unfold handleBody
    rw [hlang]
    dsimp only
    rw [toolLoop_unknown env lang state call f n hfn hname hn hreg]
  cases fuel with
  | zero => exact hbody _
  | succ m => exact hbody _

theorem user_msg_content_ne (env : OrcEnv) (payload : ChatbotMessage)
    (state : ConversationState) : user_msg_content env payload state ≠ "" := by
  unfold user_msg_content render_user_content
  intro h
  have hlen := congrArg String.length h
  rw [String.length_append, String.length_append] at hlen
  have h1 : ("Below is the latest customer input and known context.\n```json\n").length = 0 := by
    simp at hlen
    omega
  exact absurd h1 (by decide)

theorem unavailText_ne (lang : String) :
    (if strStartsWith lang "en" then enUnavailableText else ukUnavailableText) ≠ "" := by
  split
  · decide
  · decide

theorem apologyText_ne (lang : String) :
    (if strStartsWith lang "en" then enApologyText else defaultApologyText) ≠ "" := by
  split
  · decide
  · decide

theorem maybe_store_send (reply : AgentReply) (state : ConversationState) (now : Int)
    (he : reply.event = "send") (hd : reply.data ≠ "") :
    maybe_store_assistant_reply reply state now =
      state.append_history "assistant" reply.data MAX_HISTORY_MESSAGES now := by
  unfold maybe_store_assistant_reply
  rw [if_neg]
  simp [he, hd]

theorem append_user_language (env : OrcEnv) (payload : ChatbotMessage)
    (state : ConversationState) (now : Int) :
    (append_user_message env payload state now).language = state.language :=
  (append_history_fields state "user" (user_msg_content env payload state)
    MAX_HISTORY_MESSAGES now).1

theorem append_user_chat_id (env : OrcEnv) (payload : ChatbotMessage)
    (state : ConversationState) (now : Int) :
    (append_user_message env payload state now).chat_id = state.chat_id :=
  (append_history_fields state "user" (user_msg_content env payload state)
    MAX_HISTORY_MESSAGES now).2.1

/-- C3 (amended): when the model requests a tool whose name is not in the
registry, `handle_turn` returns `event="send"` with the localized
"tool unavailable" string and empty context updates, without any retry,
and the persisted state contains the appended user message followed by an
assistant history entry carrying that same unavailable text (the reply is
a non-empty `"send"` reply, so `_maybe_store_assistant_reply` stores it). -/
theorem unknown_tool_reply_amended
    (env : OrcEnv) (st : StoreModel) (payload : ChatbotMessage) (now : Int) (fuel : Nat)
    (state0 : ConversationState) (call : ToolCall) (f : ToolCallFunction)
    (n lang : String) (c : Completion) (ch : Choice) (msg : ChatMessage)
    (hstate : (st.load payload now).2.deref (st.load payload now).1 = some state0)
    (hcid : state0.chat_id = payload.chat_id)
    (hgen : env.gen (build_messages (append_user_message env payload state0 now))
      availableTools = .ok c)
    (hchoice : safe_get_choice c = some ch)
    (hmsg : ch.message = some msg)
    (hcalls : msg.tool_calls = some [call])
    (hfn : call.function = some f)
    (hname : f.name = some n)
    (hn : n ≠ "")
    (hreg : registryNames.contains n = false)
    (hlang : pyOrDefault state0.language env.default_language = .str lang) :
    ((handle_turn env st payload now fuel).toOption.map Prod.fst =
      some { event := "send",
             data := if strStartsWith lang "en" then enUnavailableText
                     else ukUnavailableText,
             context_updates := [] }) ∧
    ((handle_turn env st payload now fuel).toOption.bind
        (fun p => storedState p.2 payload.chat_id) =
      some ((maybe_store_assistant_reply
        { event := "send",
          data := if strStartsWith lang "en" then enUnavailableText
                  else ukUnavailableText,
          context_updates := [] }
        (append_user_message env payload state0 now) now).touch now)) ∧
    (({ role := "user", content := user_msg_content env payload state0 } : HistMsg) ∈
      (maybe_store_assistant_reply
        { event := "send",
          data := if strStartsWith lang "en" then enUnavailableText
                  else ukUnavailableText,
          context_updates := [] }
        (append_user_message env payload state0 now) now).history) ∧
    (({ role := "assistant",
        content := if strStartsWith lang "en" then enUnavailableText
                   else ukUnavailableText } : HistMsg) ∈
      (maybe_store_assistant_reply
        { event := "send",
          data := if strStartsWith lang "en" then enUnavailableText
                  else ukUnavailableText,
          context_updates := [] }
        (append_user_message env payload state0 now) now).history) := by
  set reply : AgentReply :=
    { event := "send",
      data := if strStartsWith lang "en" then enUnavailableText else ukUnavailableText,
      context_updates := [] } with hreply
  set state1 := append_user_message env payload state0 now with hstate1
  have hlang1 : pyOrDefault state1.language env.default_language = .str lang := by
    rw [hstate1, append_user_language]
    exact hlang
  have horch : orchestrationBody env payload state0 fuel now = (.ok reply, state1) := by
    unfold orchestrationBody
    dsimp only
    rw [← hstate1, hgen]
    dsimp only
    unfold build_agent_reply
    rw [hchoice]
    dsimp only
    rw [hmsg]
    dsimp only [Option.getD]
    rw [hcalls]
    dsimp only
    rw [if_pos (show (!([call] : List ToolCall).isEmpty) = true from rfl)]
    exact handle_tool_calls_unknown env fuel state1 call f n lang hfn hname hn hreg hlang1
  have hmain : handle_turn env st payload now fuel =
      .ok (reply,
        (mutateAt (st.load payload now).2 (st.load payload now).1
            (fun _ => maybe_store_assistant_reply reply state1 now)).persistAddr
          (st.load payload now).1 now) := by
    unfold handle_turn
    dsimp only
    rw [hstate]
    dsimp only [Option.getD]
    rw [horch]
    dsimp only
    rw [if_neg (by decide)]
  have hcid4 : (maybe_store_assistant_reply reply state1 now).chat_id = payload.chat_id := by
    rw [maybe_store_send reply state1 now rfl (by rw [hreply]; exact unavailText_ne lang)]
    rw [(append_history_fields state1 "assistant" reply.data MAX_HISTORY_MESSAGES now).2.1]
    rw [hstate1, append_user_chat_id]
    exact hcid
  have husertail : ∃ l', state1.history =
      l' ++ [({ role := "user", content := user_msg_content env payload state0 } : HistMsg)] := by
    rw [hstate1]
    exact append_history_tail state0 "user" (user_msg_content env payload state0)
      MAX_HISTORY_MESSAGES now (user_msg_content_ne env payload state0) (by decide)
  obtain ⟨l', hl'⟩ := husertail
  refine ⟨?_, ?_, ?_, ?_⟩
  · rw [hmain]
    rfl
  · rw [hmain]
    show storedState _ payload.chat_id = _
    exact storedState_persist_mutate _ _ _ now payload.chat_id
      (load_addr_lt st payload now) hcid4
  · rw [maybe_store_send reply state1 now rfl (by rw [hreply]; exact unavailText_ne lang)]
    exact mem_append_history state1 _ l' "assistant" reply.data MAX_HISTORY_MESSAGES now
      hl' (by decide)
  · rw [maybe_store_send reply state1 now rfl (by rw [hreply]; exact unavailText_ne lang)]
    have := append_history_tail state1 "assistant" reply.data MAX_HISTORY_MESSAGES now
      (by rw [hreply]; exact unavailText_ne lang) (by decide)
    obtain ⟨l'', hl''⟩ := this
    rw [hl'']
    simp [hreply]

/-- C3 counterexample: the claim says the persisted state contains the
appended user message but **no assistant message**.  On a concrete unknown
tool request the reply is the localized unavailable text as claimed, but
the persisted history ends with an assistant entry (the unavailable text
is a non-empty `"send"` reply, which `_maybe_store_assistant_reply`
appends). -/
theorem unknown_tool_reply_counterexample :
    ((handle_turn
        { gen := fun _ tools =>
            match tools with
            | some _ => .ok { choices := [{ message := some { content := .none, tool_calls := some [{ id := some "call1", function := some { name := some "no_such_tool", arguments := "" } }] } }] }
            | Option.none => .error (.other "NoCall"),
          rt := { parse := fun _ => Option.none, run := fun _ _ _ _ => .badShape },
          dumpsPretty := fun _ => "J",
          currentTimestamp := fun _ => ("T", "UTC") }
        ({} : StoreModel)
        { chat_id := "c1", text := "hello", context := { language := some "uk" } }
        100 5).toOption.map Prod.fst =
      some { event := "send", data := ukUnavailableText, context_updates := [] }) ∧
    (((handle_turn
        { gen := fun _ tools =>
            match tools with
            | some _ => .ok { choices := [{ message := some { content := .none, tool_calls := some [{ id := some "call1", function := some { name := some "no_such_tool", arguments := "" } }] } }] }
            | Option.none => .error (.other "NoCall"),
          rt := { parse := fun _ => Option.none, run := fun _ _ _ _ => .badShape },
          dumpsPretty := fun _ => "J",
          currentTimestamp := fun _ => ("T", "UTC") }
        ({} : StoreModel)
        { chat_id := "c1", text := "hello", context := { language := some "uk" } }
        100 5).toOption.bind (fun p => storedState p.2 "c1")).map
      (fun s => s.history.map HistMsg.role) = some ["user", "assistant"]) :=
  ⟨rfl, rfl⟩

theorem unknown_tool_reply_witness :
    (handle_turn
        { gen := fun _ tools =>
            match tools with
            | some _ => .ok { choices := [{ message := some { content := .none, tool_calls := some [{ id := some "call1", function := some { name := some "no_such_tool", arguments := "" } }] } }] }
            | Option.none => .error (.other "NoCall"),
          rt := { parse := fun _ => Option.none, run := fun _ _ _ _ => .badShape },
          dumpsPretty := fun _ => "J",
          currentTimestamp := fun _ => ("T", "UTC") }
        ({} : StoreModel)
        { chat_id := "c1", text := "hello", context := { language := some "uk" } }
        100 5).toOption.map Prod.fst =
      some { event := "send", data := ukUnavailableText, context_updates := [] } :=
  (unknown_tool_reply_amended
    { gen := fun _ tools =>
        match tools with
        | some _ => .ok { choices := [{ message := some { content := .none, tool_calls := some [{ id := some "call1", function := some { name := some "no_such_tool", arguments := "" } }] } }] }
        | Option.none => .error (.other "NoCall"),
      rt := { parse := fun _ => Option.none, run := fun _ _ _ _ => .badShape },
      dumpsPretty := fun _ => "J",
      currentTimestamp := fun _ => ("T", "UTC") }
    ({} : StoreModel)
    { chat_id := "c1", text := "hello", context := { language := some "uk" } }
    100 5
    { chat_id := "c1", language := some (.str "uk"), slots := [], metadata := [],
      history := [], last_updated := 100 }
    { id := some "call1", function := some { name := some "no_such_tool", arguments := "" } }
    { name := some "no_such_tool", arguments := "" }
    "no_such_tool" "uk"
    { choices := [{ message := some { content := .none, tool_calls := some [{ id := some "call1", function := some { name := some "no_such_tool", arguments := "" } }] } }] }
    { message := some { content := .none, tool_calls := some [{ id := some "call1", function := some { name := some "no_such_tool", arguments := "" } }] } }
    { content := .none, tool_calls := some [{ id := some "call1", function := some { name := some "no_such_tool", arguments := "" } }] }
    rfl rfl rfl rfl rfl rfl rfl rfl (by decide) rfl rfl).1

/-- C1: if the dispatch loop completes (every requested tool executed) and
some tool's result has a non-`"send"` event, `_handle_tool_calls` returns
that result's `(event, data)` pair at once — for every environment, so no
post-processing model call can influence the reply and no other tool's
text is incorporated — together with the merged context updates of all
dispatched tools.  The first such result in dispatch order wins. -/
theorem function_event_short_circuits (env : OrcEnv) (fuel : Nat)
    (calls : List ToolCall) (state state' : ConversationState)
    (pairs : List (ToolCall × ToolExecutionResult)) (ups : List Dict)
    (cu : Dict) (fr : ToolExecutionResult)
    (hloop : toolLoop env (pyOrDefault state.language env.default_language)
      calls state [] [] = (.done pairs ups, state'))
    (hmerge : merge_context_updates ups = .ok cu)
    (hfind : (pairs.map (fun p => p.2)).find? (fun r => r.event != "send") = some fr) :
    handle_tool_calls env fuel calls state =
      (.ok { event := fr.event, data := fr.data, context_updates := cu }, state') := by
  have hne : (pairs.map (fun p => p.2)).isEmpty = false := by
    cases hp : pairs.map (fun p => p.2) with
    | nil => rw [hp] at hfind; cases hfind
    | cons x xs => rfl
  have hbody : ∀ recurse, handleBody env recurse calls state =
      (.ok { event := fr.event, data := fr.data, context_updates := cu }, state') := by
    intro recurse
    unfold handleBody
    dsimp only
    rw [hloop]
    dsimp only
    rw [hne]
    rw [if_neg (by decide)]
    rw [hmerge]
    dsimp only
    rw [hfind]
  cases fuel with
  | zero => exact hbody _
  | succ m => exact hbody _

theorem function_event_short_circuits_witness :
    (handle_tool_calls
        { gen := fun _ _ => .error (.other "NoCall"),
          rt := { parse := fun _ => Option.none,
                  run := fun name _ _ _ =>
                    if name = "get_statement" then
                      .res { event := "function", data := .str "STMT",
                             context_updates := some [("slots", .dict [("b", .int 2)])],
                             post_process := false }
                    else if name = "get_balance" then
                      .res { event := "send", data := .str "A",
                             context_updates := some [("slots", .dict [("a", .int 1)])],
                             post_process := false }
                    else
                      .res { event := "send", data := .str "C",
                             context_updates := Option.none, post_process := false } },
          dumpsPretty := fun _ => "J",
          currentTimestamp := fun _ => ("T", "UTC") }
        5
        [{ id := some "id1", function := some { name := some "get_balance", arguments := "" } },
         { id := some "id2", function := some { name := some "get_statement", arguments := "" } },
         { id := some "id3", function := some { name := some "get_bank_info", arguments := "" } }]
        { chat_id := "c1", language := some (.str "uk") }).1 =
      .ok { event := "function", data := "STMT",
            context_updates := [("slots", .dict [("a", .int 1), ("b", .int 2)])] } :=
  congrArg Prod.fst
    (function_event_short_circuits
      { gen := fun _ _ => .error (.other "NoCall"),
        rt := { parse := fun _ => Option.none,
                run := fun name _ _ _ =>
                  if name = "get_statement" then
                    .res { event := "function", data := .str "STMT",
                           context_updates := some [("slots", .dict [("b", .int 2)])],
                           post_process := false }
                  else if name = "get_balance" then
                    .res { event := "send", data := .str "A",
                           context_updates := some [("slots", .dict [("a", .int 1)])],
                           post_process := false }
                  else
                    .res { event := "send", data := .str "C",
                           context_updates := Option.none, post_process := false } },
        dumpsPretty := fun _ => "J",
        currentTimestamp := fun _ => ("T", "UTC") }
      5
      [{ id := some "id1", function := some { name := some "get_balance", arguments := "" } },
       { id := some "id2", function := some { name := some "get_statement", arguments := "" } },
       { id := some "id3", function := some { name := some "get_bank_info", arguments := "" } }]
      { chat_id := "c1", language := some (.str "uk") }
      (({ chat_id := "c1", language := some (.str "uk") } :
          ConversationState).apply_updates
        [("slots", .dict [("a", .int 1)])] |>.apply_updates
        [("slots", .dict [("b", .int 2)])])
      [({ id := some "id1", function := some { name := some "get_balance", arguments := "" } },
        { event := "send", data := "A",
          context_updates := [("slots", .dict [("a", .int 1)])], post_process := false }),
       ({ id := some "id2", function := some { name := some "get_statement", arguments := "" } },
        { event := "function", data := "STMT",
          context_updates := [("slots", .dict [("b", .int 2)])], post_process := false }),
       ({ id := some "id3", function := some { name := some "get_bank_info", arguments := "" } },
        { event := "send", data := "C", context_updates := [], post_process := false })]
      [[("slots", .dict [("a", .int 1)])], [("slots", .dict [("b", .int 2)])], []]
      [("slots", .dict [("a", .int 1), ("b", .int 2)])]
      { event := "function", data := "STMT",
        context_updates := [("slots", .dict [("b", .int 2)])], post_process := false }
      rfl rfl rfl)

theorem apply_updates_history_chat (s : ConversationState) (u : Dict) :
    (s.apply_updates u).history = s.history ∧ (s.apply_updates u).chat_id = s.chat_id := by
  unfold ConversationState.apply_updates
  by_cases h : u.isEmpty
  · rw [if_pos h]; exact ⟨rfl, rfl⟩
  · rw [if_neg h]
    dsimp only
    constructor
    · rw [ff_fold_history, (applyMetadataPhase_fields _ _).2.2.1,
        (applySlotsPhase_fields _ _).2.2.1, (applyLanguagePhase_fields _ _).2.2.1]
    · rw [ff_fold_chat_id, (applyMetadataPhase_fields _ _).2.2.2,
        (applySlotsPhase_fields _ _).2.2.2, (applyLanguagePhase_fields _ _).2.2.2]

theorem toolLoop_state_inv (env : OrcEnv) (lang : Val) :
    ∀ (calls : List ToolCall) (state : ConversationState)
      (pairs : List (ToolCall × ToolExecutionResult)) (ups : List Dict),
      (toolLoop env lang calls state pairs ups).2.history = state.history ∧
      (toolLoop env lang calls state pairs ups).2.chat_id = state.chat_id
  | [], state, pairs, ups => ⟨rfl, rfl⟩
  | call :: rest, state, pairs, ups => by
      unfold toolLoop
      dsimp only
      split
      · exact toolLoop_state_inv env lang rest state pairs ups
      · split
        · exact ⟨rfl, rfl⟩
        · exact ⟨rfl, rfl⟩
        · rename_i result _
          have ih := toolLoop_state_inv env lang rest
            (if (!result.context_updates.isEmpty) = true then
              state.apply_updates result.context_updates else state)
            (pairs ++ [(call, result)]) (ups ++ [result.context_updates])
          obtain ⟨ih1, ih2⟩ := ih
          constructor
          · rw [ih1]
            split
            · exact (apply_updates_history_chat state result.context_updates).1
            · rfl
          · rw [ih2]
            split
            · exact (apply_updates_history_chat state result.context_updates).2
            · rfl

theorem complete_state_inv (env : OrcEnv)
    (recurse : List ToolCall → ConversationState →
      Except PyExn AgentReply × ConversationState)
    (state : ConversationState) (acs : List AssistantToolCall)
    (touts : List (String × String)) (cu : Dict)
    (hrec : ∀ calls s, (recurse calls s).2.history = s.history ∧
      (recurse calls s).2.chat_id = s.chat_id) :
    (complete_with_tool_outputs env recurse state acs touts cu).2.history
      = state.history ∧
    (complete_with_tool_outputs env recurse state acs touts cu).2.chat_id
      = state.chat_id := by
  unfold complete_with_tool_outputs
  dsimp only
  split
  · exact ⟨rfl, rfl⟩
  · split
    · exact ⟨rfl, rfl⟩
    · split
      · split
        · split
          · exact hrec _ _
          · split
            · split
              · exact hrec _ _
              · exact hrec _ _
            · split
              · exact hrec _ _
              · exact hrec _ _
        · split
          · exact ⟨rfl, rfl⟩
          · exact ⟨rfl, rfl⟩
      · split
        · exact ⟨rfl, rfl⟩
        · exact ⟨rfl, rfl⟩

theorem handleBody_state_inv (env : OrcEnv)
    (recurse : List ToolCall → ConversationState →
      Except PyExn AgentReply × ConversationState)
    (calls : List ToolCall) (state : ConversationState)
    (hrec : ∀ calls s, (recurse calls s).2.history = s.history ∧
      (recurse calls s).2.chat_id = s.chat_id) :
    (handleBody env recurse calls state).2.history = state.history ∧
    (handleBody env recurse calls state).2.chat_id = state.chat_id := by
  unfold handleBody
  dsimp only
  rcases htl : toolLoop env (pyOrDefault state.language env.default_language)
    calls state [] [] with ⟨out, st2⟩
  have hinv := toolLoop_state_inv env (pyOrDefault state.language env.default_language)
    calls state [] []
  rw [htl] at hinv
  obtain ⟨hinv1, hinv2⟩ := hinv
  cases out with
  | earlyReturn r => exact ⟨hinv1, hinv2⟩
  | done pairs ups =>
      dsimp only
      split
      · exact ⟨hinv1, hinv2⟩
      · split
        · exact ⟨hinv1, hinv2⟩
        · split
          · exact ⟨hinv1, hinv2⟩
          · split
            · exact ⟨(complete_state_inv env recurse st2 _ _ _ hrec).1.trans hinv1,
                (complete_state_inv env recurse st2 _ _ _ hrec).2.trans hinv2⟩
            · exact ⟨hinv1, hinv2⟩

theorem handle_tool_calls_state_inv (env : OrcEnv) :
    ∀ (fuel : Nat) (calls : List ToolCall) (state : ConversationState),
      (handle_tool_calls env fuel calls state).2.history = state.history ∧
      (handle_tool_calls env fuel calls state).2.chat_id = state.chat_id
  | 0, calls, state =>
      handleBody_state_inv env _ calls state (fun _ _ => ⟨rfl, rfl⟩)
  | fuel + 1, calls, state =>
      handleBody_state_inv env _ calls state
        (fun calls' s' => handle_tool_calls_state_inv env fuel calls' s')

theorem build_agent_reply_state_inv (env : OrcEnv) (completion : Completion)
    (state : ConversationState) (fuel : Nat) :
    (build_agent_reply env completion state fuel).2.history = state.history ∧
    (build_agent_reply env completion state fuel).2.chat_id = state.chat_id := by
  unfold build_agent_reply
  dsimp only
  split
  · exact ⟨rfl, rfl⟩
  · split
    · split
      · exact handle_tool_calls_state_inv env fuel _ _
      · split
        · exact ⟨rfl, rfl⟩
        · exact ⟨rfl, rfl⟩
    · split
      · exact ⟨rfl, rfl⟩
      · exact ⟨rfl, rfl⟩

theorem orchestrationBody_state_inv (env : OrcEnv) (payload : ChatbotMessage)
    (state : ConversationState) (fuel : Nat) (now : Int) :
    (orchestrationBody env payload state fuel now).2.history =
      (append_user_message env payload state now).history ∧
    (orchestrationBody env payload state fuel now).2.chat_id =
      (append_user_message env payload state now).chat_id := by
  unfold orchestrationBody
  dsimp only
  split
  · exact ⟨rfl, rfl⟩
  · exact build_agent_reply_state_inv env _ _ fuel

/-- C2: whenever an exception escapes the orchestration body of
`handle_turn` (after the state was loaded), the returned reply is the
fixed localized apology selected by the session's language — the English
text when it starts with `"en"`, otherwise the default-language
(Ukrainian) text — its context updates record the error class name under
`metadata["last_error"]`, and the state, including the appended user
message, is still persisted to the store. -/
theorem fallback_on_exception
    (env : OrcEnv) (st : StoreModel) (payload : ChatbotMessage) (now : Int) (fuel : Nat)
    (e : PyExn) (state0 state2 : ConversationState) (lang : String)
    (hstate : (st.load payload now).2.deref (st.load payload now).1 = some state0)
    (hcid : state0.chat_id = payload.chat_id)
    (hbody : orchestrationBody env payload state0 fuel now = (.error e, state2))
    (hlang : pyOrDefault state2.language env.default_language = .str lang) :
    ((handle_turn env st payload now fuel).toOption.map Prod.fst =
      some { event := "send",
             data := if strStartsWith lang "en" then enApologyText else defaultApologyText,
             context_updates := [("metadata", .dict [("last_error", .str e.name)])] }) ∧
    ((handle_turn env st payload now fuel).toOption.bind
        (fun p => storedState p.2 payload.chat_id) =
      some ((maybe_store_assistant_reply
        { event := "send",
          data := if strStartsWith lang "en" then enApologyText else defaultApologyText,
          context_updates := [("metadata", .dict [("last_error", .str e.name)])] }
        (state2.apply_updates [("metadata", .dict [("last_error", .str e.name)])])
        now).touch now)) ∧
    (({ role := "user", content := user_msg_content env payload state0 } : HistMsg) ∈
      (maybe_store_assistant_reply
        { event := "send",
          data := if strStartsWith lang "en" then enApologyText else defaultApologyText,
          context_updates := [("metadata", .dict [("last_error", .str e.name)])] }
        (state2.apply_updates [("metadata", .dict [("last_error", .str e.name)])])
        now).history) := by
  set reply : AgentReply :=
    { event := "send",
      data := if strStartsWith lang "en" then enApologyText else defaultApologyText,
      context_updates := [("metadata", .dict [("last_error", .str e.name)])] } with hreply
  set state3 := state2.apply_updates [("metadata", .dict [("last_error", .str e.name)])]
    with hstate3
  have hfall : fallback_reply env.default_language state2 (some e) = .ok reply := by
    unfold fallback_reply
    rw [hlang]
  have hdata_ne : reply.data ≠ "" := by
    rw [hreply]
    exact apologyText_ne lang
  have hmain : handle_turn env st payload now fuel =
      .ok (reply,
        (mutateAt (st.load payload now).2 (st.load payload now).1
            (fun _ => maybe_store_assistant_reply reply state3 now)).persistAddr
          (st.load payload now).1 now) := by
    unfold handle_turn
    dsimp only
    rw [hstate]
    dsimp only [Option.getD]
    rw [hbody]
    dsimp only
    rw [hfall]
    dsimp only
    rw [if_pos (show (!(reply.context_updates.isEmpty)) = true from rfl)]
  have hist2 : state2.history = (append_user_message env payload state0 now).history := by
    have := (orchestrationBody_state_inv env payload state0 fuel now).1
    rw [hbody] at this
    exact this
  have hcid2 : state2.chat_id = state0.chat_id := by
    have := (orchestrationBody_state_inv env payload state0 fuel now).2
    rw [hbody] at this
    rw [this, append_user_chat_id]
  have hcid4 : (maybe_store_assistant_reply reply state3 now).chat_id = payload.chat_id := by
    rw [maybe_store_send reply state3 now rfl hdata_ne]
    rw [(append_history_fields state3 "assistant" reply.data MAX_HISTORY_MESSAGES now).2.1]
    rw [hstate3, (apply_updates_history_chat state2 _).2, hcid2, hcid]
  have husertail : ∃ l', state3.history =
      l' ++ [({ role := "user", content := user_msg_content env payload state0 } : HistMsg)] := by
    rw [hstate3, (apply_updates_history_chat state2 _).1, hist2]
    exact append_history_tail state0 "user" (user_msg_content env payload state0)
      MAX_HISTORY_MESSAGES now (user_msg_content_ne env payload state0) (by decide)
  obtain ⟨l', hl'⟩ := husertail
  refine ⟨?_, ?_, ?_⟩
  · rw [hmain]
    rfl
  · rw [hmain]
    show storedState _ payload.chat_id = _
    exact storedState_persist_mutate _ _ _ now payload.chat_id
      (load_addr_lt st payload now) hcid4
  · rw [maybe_store_send reply state3 now rfl hdata_ne]
    exact mem_append_history state3 _ l' "assistant" reply.data MAX_HISTORY_MESSAGES now
      hl' (by decide)

theorem fallback_on_exception_witness :
    (handle_turn
        { gen := fun _ _ => .error (.other "UpstreamError"),
          rt := { parse := fun _ => Option.none, run := fun _ _ _ _ => .badShape },
          dumpsPretty := fun _ => "J",
          currentTimestamp := fun _ => ("T", "UTC") }
        ({} : StoreModel)
        { chat_id := "c1", text := "hello", context := { language := some "uk" } }
        100 5).toOption.map Prod.fst =
      some { event := "send", data := defaultApologyText,
             context_updates := [("metadata", .dict [("last_error", .str "UpstreamError")])] } :=
  (fallback_on_exception
    { gen := fun _ _ => .error (.other "UpstreamError"),
      rt := { parse := fun _ => Option.none, run := fun _ _ _ _ => .badShape },
      dumpsPretty := fun _ => "J",
      currentTimestamp := fun _ => ("T", "UTC") }
    ({} : StoreModel)
    { chat_id := "c1", text := "hello", context := { language := some "uk" } }
    100 5 (.other "UpstreamError")
    { chat_id := "c1", language := some (.str "uk"), slots := [], metadata := [],
      history := [], last_updated := 100 }
    (append_user_message
      { gen := fun _ _ => .error (.other "UpstreamError"),
        rt := { parse := fun _ => Option.none, run := fun _ _ _ _ => .badShape },
        dumpsPretty := fun _ => "J",
        currentTimestamp := fun _ => ("T", "UTC") }
      { chat_id := "c1", text := "hello", context := { language := some "uk" } }
      { chat_id := "c1", language := some (.str "uk"), slots := [], metadata := [],
        history := [], last_updated := 100 }
      100)
    "uk" rfl rfl rfl rfl).1

theorem ochoice_none_right {β : Type} (a : Option β) : ochoice a Option.none = a := by
  cases a <;> rfl

theorem ochoice_assoc {β : Type} (a b c : Option β) :
    ochoice a (ochoice b c) = ochoice (ochoice a b) c := by
  cases a <;> cases b <;> rfl

theorem getLast?_cons_alt {β : Type} (v : β) (l : List β) :
    (v :: l).getLast? = ochoice l.getLast? (some v) := by
  induction l generalizing v with
  | nil => rfl
  | cons x xs ih =>
      have hsome : ∃ w, (x :: xs).getLast? = some w := by
        rw [ih x]
        cases hxs : xs.getLast?
        · exact ⟨x, rfl⟩
        · exact ⟨_, rfl⟩
      obtain ⟨w, hw⟩ := hsome
      rw [List.getLast?_cons_cons, hw]
      rfl

theorem getLast?_filterMap_cons {α β : Type} (f : α → Option β) (x : α) (xs : List α) :
    ((x :: xs).filterMap f).getLast? = ochoice ((xs.filterMap f).getLast?) (f x) := by
  rw [List.filterMap_cons]
  cases hf : f x
  · rw [ochoice_none_right]
  · rw [getLast?_cons_alt]

theorem dget_append (l₁ l₂ : Dict) (k : String) :
    dget (l₁ ++ l₂) k = ochoice (dget l₁ k) (dget l₂ k) := by
  induction l₁ with
  | nil => rfl
  | cons kv rest ih =>
      obtain ⟨k₀, v₀⟩ := kv
      by_cases h : k₀ = k
      · simp [dget, h, ochoice]
      · rw [show dget (((k₀, v₀) :: rest) ++ l₂) k = dget (rest ++ l₂) k from by
          simp [dget, h]]
        rw [show dget ((k₀, v₀) :: rest) k = dget rest k from by simp [dget, h]]
        exact ih

theorem nodupKeys_cons (k : String) (v : Val) (rest : Dict)
    (h : nodupKeys ((k, v) :: rest) = true) :
    dget rest k = Option.none ∧ nodupKeys rest = true := by
  unfold nodupKeys at h
  constructor
  · cases hd : dget rest k
    · rfl
    · rw [hd] at h
      simp at h
  · cases hn : nodupKeys rest
    · rw [hn] at h
      simp at h
    · rfl

theorem dget_dupdate (d o : Dict) (ik : String) (hnodup : nodupKeys o = true) :
    dget (dupdate d o) ik = ochoice (dget o ik) (dget d ik) := by
  induction o generalizing d with
  | nil => rfl
  | cons kv rest ih =>
      obtain ⟨k₀, v₀⟩ := kv
      obtain ⟨hnone, hrest⟩ := nodupKeys_cons k₀ v₀ rest hnodup
      have hstep : dupdate d ((k₀, v₀) :: rest) = dupdate (dinsert d k₀ v₀) rest := by
        simp [dupdate]
      rw [hstep, ih _ hrest]
      by_cases hk : k₀ = ik
      · subst hk
        rw [dget_dinsert, if_pos rfl]
        rw [show dget ((k₀, v₀) :: rest) k₀ = some v₀ from by simp [dget]]
        rw [hnone]
        rfl
      · rw [dget_dinsert, if_neg hk]
        rw [show dget ((k₀, v₀) :: rest) ik = dget rest ik from by simp [dget, hk]]

theorem dget_foldl_dupdate (ds : List Dict) (acc : Dict) (ik : String)
    (h : ∀ d ∈ ds, nodupKeys d = true) :
    dget (ds.foldl dupdate acc) ik =
      ochoice ((ds.filterMap (fun d => dget d ik)).getLast?) (dget acc ik) := by
  induction ds generalizing acc with
  | nil => rfl
  | cons d rest ih =>
      rw [List.foldl_cons, ih (dupdate acc d) (fun d' hd' => h d' (by simp [hd']))]
      rw [dget_dupdate acc d ik (h d (by simp))]
      rw [getLast?_filterMap_cons]
      rw [← ochoice_assoc]

theorem mergeReservedStep_spec (m : Dict) (rk : String) (v₀ : Val)
    (hm : dget m rk = Option.none ∨ ∃ cur, dget m rk = some (.dict cur)) :
    ∃ m₁, mergeReservedStep m rk v₀ = .ok m₁ ∧
      dget m₁ rk = some (.dict (dupdate (curOf m rk) (dvOf v₀))) ∧
      (∀ k, k ≠ rk → dget m₁ k = dget m k) := by
  unfold mergeReservedStep
  rcases hm with hnone | ⟨cur, hsome⟩
  · have hsd : dsetdefault m rk (.dict []) = m ++ [(rk, .dict [])] := by
      unfold dsetdefault
      rw [hnone]
    rw [hsd]
    dsimp only
    have hget : dget (m ++ [(rk, .dict [])]) rk = some (.dict []) := by
      rw [dget_append, hnone]
      simp [dget, ochoice]
    rw [hget]
    dsimp only
    refine ⟨_, rfl, ?_, ?_⟩
    · rw [dget_dinsert, if_pos rfl]
      unfold curOf
      rw [hnone]
    · intro k hk
      rw [dget_dinsert, if_neg (fun h => hk h.symm), dget_append]
      rw [show dget [(rk, Val.dict [])] k = Option.none from by
        simp only [dget, if_neg (fun h => hk (Eq.symm h))]]
      rw [ochoice_none_right]
  · have hsd : dsetdefault m rk (.dict []) = m := by
      unfold dsetdefault
      rw [hsome]
    rw [hsd]
    dsimp only
    rw [hsome]
    dsimp only
    refine ⟨_, rfl, ?_, ?_⟩
    · rw [dget_dinsert, if_pos rfl]
      unfold curOf
      rw [hsome]
    · intro k hk
      rw [dget_dinsert, if_neg (fun h => hk h.symm)]

theorem merge_step_spec (m : Dict) (k₀ : String) (v₀ : Val) (hacc : accWF m)
    (hres : (k₀ = "slots" ∨ k₀ = "metadata") → ∃ dv, v₀ = .dict dv) :
    ∃ m₁, merge_step m (k₀, v₀) = .ok m₁ ∧ accWF m₁ ∧
      (∀ k, k ≠ k₀ → dget m₁ k = dget m k) ∧
      (k₀ ≠ "slots" → k₀ ≠ "metadata" → dget m₁ k₀ = some v₀) ∧
      ((k₀ = "slots" ∨ k₀ = "metadata") →
        dget m₁ k₀ = some (.dict (dupdate (curOf m k₀) (dvOf v₀)))) := by
  by_cases hs : k₀ = "slots"
  · subst hs
    obtain ⟨dv, rfl⟩ := hres (Or.inl rfl)
    have hm : dget m "slots" = Option.none ∨ ∃ cur, dget m "slots" = some (.dict cur) := by
      cases hd : dget m "slots" with
      | none => exact Or.inl rfl
      | some w =>
          obtain ⟨d, rfl⟩ := hacc "slots" w (Or.inl rfl) hd
          refine Or.inr ⟨d, ?_⟩
          exact rfl
    obtain ⟨m₁, hstep, hat, hframe⟩ := mergeReservedStep_spec m "slots" (.dict dv) hm
    refine ⟨m₁, ?_, ?_, hframe, ?_, ?_⟩
    · unfold merge_step
      dsimp only
      rw [if_pos (by simp [Val.isDict])]
      exact hstep
    · intro k v hkres hget
      by_cases hk : k = "slots"
      · subst hk
        rw [hat] at hget
        cases hget
        exact ⟨_, rfl⟩
      · rw [hframe k hk] at hget
        exact hacc k v hkres hget
    · intro h1 _
      exact absurd rfl h1
    · intro _
      exact hat
  · by_cases hmk : k₀ = "metadata"
    · subst hmk
      obtain ⟨dv, rfl⟩ := hres (Or.inr rfl)
      have hm : dget m "metadata" = Option.none ∨
          ∃ cur, dget m "metadata" = some (.dict cur) := by
        cases hd : dget m "metadata" with
        | none => exact Or.inl rfl
        | some w =>
            obtain ⟨d, rfl⟩ := hacc "metadata" w (Or.inr rfl) hd
            refine Or.inr ⟨d, ?_⟩
            exact rfl
      obtain ⟨m₁, hstep, hat, hframe⟩ := mergeReservedStep_spec m "metadata" (.dict dv) hm
      refine ⟨m₁, ?_, ?_, hframe, ?_, ?_⟩
      · unfold merge_step
        dsimp only
        rw [if_neg (by simp [hs]), if_pos (by simp [Val.isDict])]
        exact hstep
      · intro k v hkres hget
        by_cases hk : k = "metadata"
        · subst hk
          rw [hat] at hget
          cases hget
          exact ⟨_, rfl⟩
        · rw [hframe k hk] at hget
          exact hacc k v hkres hget
      · intro _ h2
        exact absurd rfl h2
      · intro _
        exact hat
    · refine ⟨dinsert m k₀ v₀, ?_, ?_, ?_, ?_, ?_⟩
      · unfold merge_step
        dsimp only
        rw [if_neg (by simp [hs]), if_neg (by simp [hmk])]
      · intro k v hkres hget
        have hkk : k ≠ k₀ := by
          rcases hkres with h | h <;> (subst h; intro hh; first | exact hs hh.symm | exact hmk hh.symm)
        rw [dget_dinsert, if_neg (fun h => hkk h.symm)] at hget
        exact hacc k v hkres hget
      · intro k hk
        rw [dget_dinsert, if_neg (fun h => hk h.symm)]
      · intro _ _
        rw [dget_dinsert, if_pos rfl]
      · intro hkres
        rcases hkres with h | h
        · exact absurd h hs
        · exact absurd h hmk

theorem foldlM_merge_spec :
    ∀ (items : Dict) (m : Dict), accWF m → nodupKeys items = true →
      (∀ kv ∈ items, (kv.1 = "slots" ∨ kv.1 = "metadata") → ∃ d, kv.2 = .dict d) →
      ∃ m₁, items.foldlM merge_step m = .ok m₁ ∧ accWF m₁ ∧
        (∀ k, k ≠ "slots" → k ≠ "metadata" →
          dget m₁ k = ochoice (dget items k) (dget m k)) ∧
        (∀ k, (k = "slots" ∨ k = "metadata") →
          dget m₁ k =
            match dget items k with
            | some v => some (.dict (dupdate (curOf m k) (dvOf v)))
            | Option.none => dget m k)
  | [], m, hacc, _, _ => by
      refine ⟨m, rfl, hacc, ?_, ?_⟩
      · intro k _ _
        rfl
      · intro k _
        rfl
  | (k₀, v₀) :: rest, m, hacc, hnodup, hitems => by
      obtain ⟨hnone, hrest⟩ := nodupKeys_cons k₀ v₀ rest hnodup
      obtain ⟨m₁, hstep, hacc₁, hframe, hpos, hresv⟩ :=
        merge_step_spec m k₀ v₀ hacc (fun h => hitems (k₀, v₀) (by simp) h)
      obtain ⟨m₂, hfold, hacc₂, hnr₂, hres₂⟩ :=
        foldlM_merge_spec rest m₁ hacc₁ hrest
          (fun kv hkv h => hitems kv (by simp [hkv]) h)
      refine ⟨m₂, ?_, hacc₂, ?_, ?_⟩
      · rw [List.foldlM_cons, hstep]
        dsimp only [Bind.bind, Except.bind]
        exact hfold
      · intro k h1 h2
        by_cases hk : k = k₀
        · subst hk
          rw [hnr₂ k h1 h2, hnone]
          rw [show dget ((k, v₀) :: rest) k = some v₀ from by simp [dget]]
          rw [hpos h1 h2]
          rfl
        · rw [hnr₂ k h1 h2, hframe k (fun h => hk h)]
          rw [show dget ((k₀, v₀) :: rest) k = dget rest k from by
            simp only [dget, if_neg (fun h => hk (Eq.symm h))]]
      · intro k hkres
        by_cases hk : k = k₀
        · subst hk
          have hkres₀ : k = "slots" ∨ k = "metadata" := hkres
          rw [show dget ((k, v₀) :: rest) k = some v₀ from by simp [dget]]
          have := hres₂ k hkres
          rw [hnone] at this
          rw [this]
          exact hresv hkres₀
        · have hcur : curOf m₁ k = curOf m k := by
            unfold curOf
            rw [hframe k (fun h => hk h)]
          have := hres₂ k hkres
          rw [hcur, hframe k (fun h => hk h)] at this
          rw [this]
          rw [show dget ((k₀, v₀) :: rest) k = dget rest k from by
            simp only [dget, if_neg (fun h => hk (Eq.symm h))]]

theorem merge_one_eq (m u : Dict) : merge_one m u = u.foldlM merge_step m := by
  cases u with
  | nil => rfl
  | cons kv rest => rfl

theorem mem_dget_isSome (u : Dict) (k : String) (v : Val) (hmem : (k, v) ∈ u) :
    (dget u k).isSome := by
  induction u with
  | nil => cases hmem
  | cons kv rest ih =>
      obtain ⟨k₀, v₀⟩ := kv
      by_cases hk : k₀ = k
      · simp [dget, hk]
      · rcases List.mem_cons.mp hmem with h | h
        · cases h
          exact absurd rfl hk
        · simp only [dget, if_neg hk]
          exact ih h

theorem dget_of_mem_nodup (u : Dict) (k : String) (v : Val)
    (hnodup : nodupKeys u = true) (hmem : (k, v) ∈ u) : dget u k = some v := by
  induction u with
  | nil => cases hmem
  | cons kv rest ih =>
      obtain ⟨k₀, v₀⟩ := kv
      obtain ⟨hnone, hrest⟩ := nodupKeys_cons k₀ v₀ rest hnodup
      rcases List.mem_cons.mp hmem with h | h
      · cases h
        simp [dget]
      · have hk : ¬ k₀ = k := by
          intro hk
          subst hk
          have := mem_dget_isSome rest k₀ v h
          rw [hnone] at this
          cases this
        simp only [dget, if_neg hk]
        exact ih hrest h

theorem wfUpdate_parts (u : Dict) (hwf : wfUpdate u = true) :
    nodupKeys u = true ∧ dictValNodup (dget u "slots") = true ∧
      dictValNodup (dget u "metadata") = true := by
  unfold wfUpdate at hwf
  refine ⟨?_, ?_, ?_⟩
  · cases h : nodupKeys u
    · rw [h] at hwf; simp at hwf
    · rfl
  · cases h : dictValNodup (dget u "slots")
    · rw [h] at hwf; simp at hwf
    · rfl
  · cases h : dictValNodup (dget u "metadata")
    · rw [h] at hwf; simp at hwf
    · rfl

theorem wfUpdate_items (u : Dict) (hwf : wfUpdate u = true) :
    ∀ kv ∈ u, (kv.1 = "slots" ∨ kv.1 = "metadata") → ∃ d, kv.2 = .dict d := by
  obtain ⟨hnodup, hs, hm⟩ := wfUpdate_parts u hwf
  intro kv hkv hres
  obtain ⟨k, v⟩ := kv
  have hget := dget_of_mem_nodup u k v hnodup hkv
  rcases hres with h | h
  · subst h
    rw [hget] at hs
    cases v <;> first
      | exact ⟨_, rfl⟩
      | (dsimp only [dictValNodup] at hs; cases hs)
  · subst h
    rw [hget] at hm
    cases v <;> first
      | exact ⟨_, rfl⟩
      | (dsimp only [dictValNodup] at hm; cases hm)

theorem reservedInner_cons_none (u : Dict) (rest : List Dict) (k : String)
    (h : dget u k = Option.none) :
    reservedInner (u :: rest) k = reservedInner rest k := by
  unfold reservedInner
  rw [List.filterMap_cons, h]

theorem reservedInner_cons_dict (u : Dict) (rest : List Dict) (k : String) (dv : Dict)
    (h : dget u k = some (.dict dv)) :
    reservedInner (u :: rest) k = dv :: reservedInner rest k := by
  unfold reservedInner
  rw [List.filterMap_cons, h]

theorem mergedReservedAcc_of_dict (m : Dict) (rest : List Dict) (k : String) (c : Dict)
    (h : dget m k = some (.dict c)) :
    mergedReservedAcc m rest k =
      some (.dict ((reservedInner rest k).foldl dupdate c)) := by
  unfold mergedReservedAcc
  cases hri : reservedInner rest k with
  | nil =>
      rw [h]
      simp
  | cons d ds =>
      have hcur : curOf m k = c := by
        unfold curOf
        rw [h]
      rw [hcur]

theorem merge_fold_spec :
    ∀ (us : List Dict) (m : Dict), accWF m → (∀ u ∈ us, wfUpdate u = true) →
      ∃ m₁, us.foldlM merge_one m = .ok m₁ ∧ accWF m₁ ∧
        (∀ k, k ≠ "slots" → k ≠ "metadata" →
          dget m₁ k = ochoice (lastVal us k) (dget m k)) ∧
        (∀ k, (k = "slots" ∨ k = "metadata") → dget m₁ k = mergedReservedAcc m us k)
  | [], m, hacc, _ => by
      refine ⟨m, rfl, hacc, ?_, ?_⟩
      · intro k _ _
        rfl
      · intro k _
        rfl
  | u :: rest, m, hacc, hwf => by
      obtain ⟨hnodup, hdvs, hdvm⟩ := wfUpdate_parts u (hwf u (by simp))
      obtain ⟨m₁, hone, hacc₁, hnr₁, hres₁⟩ :=
        foldlM_merge_spec u m hacc hnodup (wfUpdate_items u (hwf u (by simp)))
      obtain ⟨m₂, hfold, hacc₂, hnr₂, hres₂⟩ :=
        merge_fold_spec rest m₁ hacc₁ (fun u' hu' => hwf u' (by simp [hu']))
      refine ⟨m₂, ?_, hacc₂, ?_, ?_⟩
      · rw [List.foldlM_cons, merge_one_eq, hone]
        dsimp only [Bind.bind, Except.bind]
        exact hfold
      · intro k h1 h2
        rw [hnr₂ k h1 h2, hnr₁ k h1 h2, ochoice_assoc]
        have hlv : lastVal (u :: rest) k = ochoice (lastVal rest k) (dget u k) := by
          unfold lastVal
          exact getLast?_filterMap_cons _ u rest
        rw [hlv]
      · intro k hkres
        have hdv : dictValNodup (dget u k) = true := by
          rcases hkres with h | h
          · subst h; exact hdvs
          · subst h; exact hdvm
        have hstep := hres₁ k hkres
        cases hdu : dget u k with
        | none =>
            rw [hdu] at hstep
            have hri := reservedInner_cons_none u rest k hdu
            have hcur : curOf m₁ k = curOf m k := by
              unfold curOf
              rw [hstep]
            rw [hres₂ k hkres]
            unfold mergedReservedAcc
            rw [hri, hcur, hstep]
        | some v =>
            obtain ⟨dv, rfl⟩ : ∃ dv, v = .dict dv := by
              rw [hdu] at hdv
              cases v <;> first
                | exact ⟨_, rfl⟩
                | (dsimp only [dictValNodup] at hdv; cases hdv)
            rw [hdu] at hstep
            have hri := reservedInner_cons_dict u rest k dv hdu
            rw [hres₂ k hkres]
            rw [mergedReservedAcc_of_dict m₁ rest k (dupdate (curOf m k) (dvOf (.dict dv)))
              hstep]
            unfold mergedReservedAcc
            rw [hri]
            dsimp only
            rw [List.foldl_cons]
            rfl

/-- C5: `merge_context_updates` gives every non-reserved key the value of
the last update containing it (later wins), while `slots` and `metadata`
are deep-merged key-by-key (later wins per inner key) instead of being
replaced wholesale; in particular the two concrete examples of the spec.
Update dicts are assumed well-formed (duplicate-free keys, reserved keys
holding dicts), which every dict built by Python satisfies. -/
theorem merge_context_updates_contract :
    (∀ (us : List Dict), (∀ u ∈ us, wfUpdate u = true) →
      ∃ m, merge_context_updates us = .ok m ∧
        (∀ k, k ≠ "slots" → k ≠ "metadata" → dget m k = lastVal us k) ∧
        (∀ k, (k = "slots" ∨ k = "metadata") →
          (reservedInner us k = [] → dget m k = Option.none) ∧
          (reservedInner us k ≠ [] →
            ∃ d, dget m k = some (.dict d) ∧ ∀ ik, dget d ik = innerLast us k ik))) ∧
    merge_context_updates
        [[("slots", .dict [("a", .int 1)])], [("slots", .dict [("b", .int 2)])]] =
      .ok [("slots", .dict [("a", .int 1), ("b", .int 2)])] ∧
    merge_context_updates [[("language", .str "uk")], [("language", .str "en")]] =
      .ok [("language", .str "en")] := by
  refine ⟨?_, rfl, rfl⟩
  intro us hwf
  have hacc0 : accWF ([] : Dict) := by
    intro k v _ hget
    cases hget
  obtain ⟨m, hfold, _hacc, hnr, hres⟩ := merge_fold_spec us [] hacc0 hwf
  refine ⟨m, hfold, ?_, ?_⟩
  · intro k h1 h2
    rw [hnr k h1 h2, show dget ([] : Dict) k = Option.none from rfl, ochoice_none_right]
  · intro k hkres
    have h := hres k hkres
    have hnodups : ∀ d' ∈ reservedInner us k, nodupKeys d' = true := by
      intro d' hd'
      obtain ⟨u, hu, hfu⟩ := List.mem_filterMap.mp hd'
      obtain ⟨_, hdvs, hdvm⟩ := wfUpdate_parts u (hwf u hu)
      have hdv : dictValNodup (dget u k) = true := by
        rcases hkres with hk | hk
        · subst hk; exact hdvs
        · subst hk; exact hdvm
      cases hg : dget u k with
      | none => rw [hg] at hfu; cases hfu
      | some v =>
          rw [hg] at hfu
          cases v <;> try cases hfu
          rw [hg] at hdv
          exact hdv
    constructor
    · intro hempty
      rw [h]
      unfold mergedReservedAcc
      rw [hempty]
      rfl
    · intro hne
      cases hri : reservedInner us k with
      | nil => exact absurd hri hne
      | cons d ds =>
          rw [h]
          unfold mergedReservedAcc
          rw [hri]
          dsimp only
          refine ⟨_, rfl, ?_⟩
          intro ik
          rw [dget_foldl_dupdate (d :: ds) (curOf [] k) ik
            (by rw [← hri]; exact hnodups)]
          rw [show dget (curOf [] k) ik = Option.none from rfl]
          rw [ochoice_none_right]
          unfold innerLast
          rw [hri]

theorem merge_context_updates_contract_witness :
    (∃ m, merge_context_updates [[("x", Val.int 1)], [("x", Val.int 2)]] = .ok m ∧
      dget m "x" = some (Val.int 2)) ∧
    merge_context_updates
        [[("slots", Val.dict [("a", Val.int 1)])], [("slots", Val.dict [("b", Val.int 2)])]] =
      .ok [("slots", Val.dict [("a", Val.int 1), ("b", Val.int 2)])] := by
  constructor
  · obtain ⟨m, hm, hnr, _⟩ := merge_context_updates_contract.1
      [[("x", Val.int 1)], [("x", Val.int 2)]] (by decide)
    refine ⟨m, hm, ?_⟩
    rw [hnr "x" (by decide) (by decide)]
    rfl
  · exact merge_context_updates_contract.2.1
